import Mathlib

/-!
Verification of the Ida9sp1-Patcher license generator (`src/main.py`).

The development shallowly embeds the program:

* `Json` models the Python dictionaries/lists/strings/ints that the
  `to_dict` methods build; `emit`/`dumps` model
  `json.dump(data, file, separators=(',', ':'))` (compact form,
  `ensure_ascii=True` escaping, insertion-ordered keys).
* `AddonPlugin`, `LicenseId`, `LicensePayload`, `License` mirror the four
  dataclasses, field defaults included, with their `to_dict` methods.
* `TimeProvider` is the injected capability (a record of the two string
  results); `DefaultTimeProvider` models the system-clock implementation
  over an explicit clock value `now` (seconds since 1970-01-01 on the
  local clock), with `datetime.strftime("%Y-%m-%d %H:%M:%S")` realized by
  a proleptic-Gregorian civil-date conversion.
* `LicenseGenerator.generate_license` mirrors the builder.
* `PyVal` models arbitrary Python values handed to `json.dump`;
  `FileWriter.write_json` and `main` model the writer boundary and the
  process driver, with the filesystem outcome of `open` supplied as an
  explicit `Option String` (the `IOError` text, `none` when writable).
* `decVal`/`decode` model `json.loads` on whitespace-free documents
  (the only documents this program produces), returning the ordered
  key-value tree.
-/

namespace Ida9sp1

/-! ## JSON values (the shape of Python dict/list/str/int data) -/

/-- A JSON-encodable Python value: the codomain of the `to_dict` methods.
Object fields are an ordered association list, matching Python's
insertion-ordered dictionaries. -/
inductive Json where
  | null
  | bool (b : Bool)
  | num (n : Int)
  | str (s : String)
  | arr (elems : List Json)
  | obj (fields : List (String × Json))

/-! ## Decimal numerals (Python `str(i)` and integer formatting) -/

/-- The decimal digit character for `d < 10`. -/
def digitC (d : Nat) : Char := Char.ofNat (48 + d)

/-- Fuel-driven digit expansion; `fuel > n` always suffices. -/
def natCharsF : Nat → Nat → List Char
  | 0, _ => []
  | fuel+1, n => if n < 10 then [digitC n] else natCharsF fuel (n / 10) ++ [digitC (n % 10)]

/-- Decimal digits of a natural number, most significant first. -/
def natChars (n : Nat) : List Char := natCharsF (n + 1) n

/-- Decimal string of a natural number (Python `str(i)` for `i ≥ 0`). -/
def natS (n : Nat) : String := String.mk (natChars n)

/-- Decimal rendering of a Python int, with a leading minus sign when
negative (the integer form `json.dump` emits). -/
def intChars (n : Int) : List Char :=
  if n < 0 then '-' :: natChars (-n).toNat else natChars n.toNat

/-! ## The compact serializer: `json.dump(data, file, separators=(',', ':'))` -/

/-- The lower-case hex digit character for `d < 16` (CPython formats
`\uXXXX` escapes with `'\\u{0:04x}'`). -/
def hexC (d : Nat) : Char := if d < 10 then Char.ofNat (48 + d) else Char.ofNat (87 + d)

/-- A six-character `\uXXXX` escape for a code unit `n < 0x10000`. -/
def uEsc4 (n : Nat) : List Char :=
  ['\\', 'u', hexC (n / 4096 % 16), hexC (n / 256 % 16), hexC (n / 16 % 16), hexC (n % 16)]

/-- CPython's `ensure_ascii=True` string-character encoder: short escapes
for the JSON control escapes, `\uXXXX` for other control and all
non-ASCII characters (a surrogate pair above `U+FFFF`), and the raw
character for printable ASCII other than `"` and `\`. -/
def escape (c : Char) : List Char :=
  if c = '"' then ['\\', '"']
  else if c = '\\' then ['\\', '\\']
  else if c = '\n' then ['\\', 'n']
  else if c = '\r' then ['\\', 'r']
  else if c = '\t' then ['\\', 't']
  else if c.toNat = 8 then ['\\', 'b']
  else if c.toNat = 12 then ['\\', 'f']
  else if c.toNat < 32 then uEsc4 c.toNat
  else if c.toNat < 127 then [c]
  else if c.toNat < 65536 then uEsc4 c.toNat
  else uEsc4 (55296 + (c.toNat - 65536) / 1024) ++ uEsc4 (56320 + (c.toNat - 65536) % 1024)

/-- Encode every character of a string body in order. -/
def escBody : List Char → List Char
  | [] => []
  | c :: cs => escape c ++ escBody cs

/-- A JSON string literal: quote, escaped body, quote. -/
def encStr (s : String) : List Char := '"' :: escBody s.data ++ ['"']

/-- The left and right curly bracket characters. -/
def lcb : Char := Char.ofNat 123

/-- The right curly bracket character. -/
def rcb : Char := Char.ofNat 125

mutual

/-- Characters of the compact JSON encoding of a value: item separator
`','`, key separator `':'`, no whitespace — exactly
`json.dump(_, _, separators=(',', ':'))`. -/
def emit : Json → List Char
  | .null => 'n' :: 'u' :: 'l' :: 'l' :: []
  | .bool true => 't' :: 'r' :: 'u' :: 'e' :: []
  | .bool false => 'f' :: 'a' :: 'l' :: 's' :: 'e' :: []
  | .num n => intChars n
  | .str s => encStr s
  | .arr es => '[' :: emitItems es ++ [']']
  | .obj ms => lcb :: emitPairs ms ++ [rcb]

/-- Array elements joined by `','`. -/
def emitItems : List Json → List Char
  | [] => []
  | [e] => emit e
  | e :: e2 :: es => emit e ++ ',' :: emitItems (e2 :: es)

/-- Object members `"key":value` joined by `','`. -/
def emitPairs : List (String × Json) → List Char
  | [] => []
  | [(k, v)] => encStr k ++ ':' :: emit v
  | (k, v) :: p :: ms => encStr k ++ ':' :: emit v ++ ',' :: emitPairs (p :: ms)

end

/-- The serialized document as a string (the exact bytes written to the
file: `json.dump` appends nothing after the value). -/
def dumps (j : Json) : String := String.mk (emit j)

/-- Keys of an object value in emission order (`[]` on non-objects). -/
def objKeys : Json → List String
  | .obj ms => ms.map Prod.fst
  | _ => []

/-! ## The time capability (`TimeProvider`, `DefaultTimeProvider`) -/

/-- The injectable time capability: the two formatted strings the builder
consumes. `current_time` is the result of `current_time()`; `future_time y`
the result of `future_time(y)`. -/
structure TimeProvider where
  current_time : String
  future_time : Nat → String

/-- Civil date (year, month, day) for a day count since 1970-01-01,
proleptic Gregorian — the calendar of Python `datetime`. -/
def civilFromDays (z : Nat) : Nat × Nat × Nat :=
  let w := z + 719468
  let era := w / 146097
  let doe := w % 146097
  let yoe := (doe - doe / 1460 + doe / 36524 - doe / 146096) / 365
  let y := yoe + era * 400
  let doy := doe - (365 * yoe + yoe / 4 - yoe / 100)
  let mp := (5 * doy + 2) / 153
  let d := doy - (153 * mp + 2) / 5 + 1
  let m := if mp < 10 then mp + 3 else mp - 9
  (if m ≤ 2 then y + 1 else y, m, d)

/-- Zero-padded two-digit decimal field (`%m`, `%d`, `%H`, `%M`, `%S`). -/
def pad2 (n : Nat) : String := if n < 10 then "0" ++ natS n else natS n

/-- Four-digit year field (`%Y`; all reachable clock values have a
four-digit year). -/
def pad4 (n : Nat) : String :=
  if n < 10 then "000" ++ natS n
  else if n < 100 then "00" ++ natS n
  else if n < 1000 then "0" ++ natS n
  else natS n

/-- The `strftime("%Y-%m-%d %H:%M:%S")` rendering of a clock value `t`
(seconds since 1970-01-01 00:00:00 on the naive local clock). -/
def fmtDT (t : Nat) : String :=
  let dd := civilFromDays (t / 86400)
  let s := t % 86400
  pad4 dd.1 ++ "-" ++ pad2 dd.2.1 ++ "-" ++ pad2 dd.2.2 ++ " " ++
    pad2 (s / 3600) ++ ":" ++ pad2 (s % 3600 / 60) ++ ":" ++ pad2 (s % 60)

namespace DefaultTimeProvider

/-- Model of `datetime.now().strftime("%Y-%m-%d %H:%M:%S")` at clock
value `now`. -/
def current_time (now : Nat) : String := fmtDT now

/-- Model of `(datetime.now() + timedelta(days=365 * years)).strftime(...)`
at clock value `now`: a `timedelta` of `365 * years` days advances the
naive clock by exactly `365 * years * 86400` seconds. -/
def future_time (now : Nat) (years : Nat) : String := fmtDT (now + 365 * years * 86400)

/-- The `DefaultTimeProvider` instance read at clock value `now` (both
methods observe the same invocation context). -/
def provider (now : Nat) : TimeProvider :=
  { current_time := current_time now, future_time := fun years => future_time now years }

end DefaultTimeProvider

/-! ## The data model: the four dataclasses and their `to_dict` methods -/

/-- Dataclass `AddonPlugin`. -/
structure AddonPlugin where
  id : String
  code : String
  owner : String
  start_date : String
  end_date : String

/-- Method `AddonPlugin.to_dict`. -/
def AddonPlugin.to_dict (a : AddonPlugin) : Json :=
  .obj [("id", .str a.id), ("code", .str a.code), ("owner", .str a.owner),
        ("start_date", .str a.start_date), ("end_date", .str a.end_date)]

/-- Dataclass `LicenseId`, field defaults included (`features` holds
opaque values; `List Json` stands in for Python `List[Any]`). -/
structure LicenseId where
  id : String := "48-2437-ACBD-29"
  license_type : String := "named"
  product : String := "IDA"
  product_id : String := "IDAPRO"
  edition_id : String := "ida-pro"
  seats : Int := 1
  start_date : String := ""
  end_date : String := ""
  issued_on : String := ""
  owner : String := "0x0060"
  add_ons : List AddonPlugin := []
  features : List Json := []

/-- Method `LicenseId.to_dict`. -/
def LicenseId.to_dict (l : LicenseId) : Json :=
  .obj [("id", .str l.id), ("license_type", .str l.license_type),
        ("product", .str l.product), ("product_id", .str l.product_id),
        ("edition_id", .str l.edition_id), ("seats", .num l.seats),
        ("start_date", .str l.start_date), ("end_date", .str l.end_date),
        ("issued_on", .str l.issued_on), ("owner", .str l.owner),
        ("add_ons", .arr (l.add_ons.map AddonPlugin.to_dict)),
        ("features", .arr l.features)]

/-- Dataclass `LicensePayload`, field defaults included. -/
structure LicensePayload where
  name : String := "0x0060"
  email : String := "ren@0x0060.dev"
  licenses : List LicenseId := []

/-- Method `LicensePayload.to_dict`. -/
def LicensePayload.to_dict (p : LicensePayload) : Json :=
  .obj [("name", .str p.name), ("email", .str p.email),
        ("licenses", .arr (p.licenses.map LicenseId.to_dict))]

/-- The fixed opaque signature token of dataclass `License`. -/
def signatureToken : String :=
  "3238353E900849B6547801BBF8AF31E7822CB4B74A6F54DE03F5E9DFF96AC5DA981B50A62EAAF021F2052CC44498107B36C2D3B34C86B7B48084313189274A1D5D1F45C1F512820C508EA22ABA43EC584E6FEFF6BA9969DD428268F40859AFFE8A2E5BB66CA9C71E78FCAC14E3168D26D11952A71C0F330251D9D74FFC67BD24"

/-- Dataclass `License`, field defaults included (`header` is a Python
dict, modeled as the ordered association list it serializes as). -/
structure License where
  header : List (String × Json) := [("version", .num 1)]
  payload : LicensePayload := {}
  signature : String := signatureToken

/-- Method `License.to_dict`. -/
def License.to_dict (l : License) : Json :=
  .obj [("header", .obj l.header), ("payload", l.payload.to_dict),
        ("signature", .str l.signature)]

/-- The whole serialization pipeline applied to a license: `to_dict`
followed by the compact dump — the bytes `write_json` writes. -/
def serializeLicense (l : License) : String := dumps l.to_dict

/-! ## The builder: `LicenseGenerator.generate_license` -/

/-- The fixed catalog of add-on entitlement codes (`addon_plugins`). -/
def addon_plugins : List String :=
  ["HEXX86", "HEXX64", "HEXARM", "HEXARM64",
   "HEXMIPS", "HEXMIPS64", "HEXPPC", "HEXPPC64",
   "HEXRV64", "HEXARC", "HEXARC64"]

namespace LicenseGenerator

/-- Method `LicenseGenerator.generate_license`, over the injected
`TimeProvider`. The Python loop `for i, plugin in enumerate(addon_plugins)`
appending to `license_id.add_ons` becomes a map over `addon_plugins.enum`;
`f"48-1337-DEAD-{i}"` becomes the decimal rendering of `i`. -/
def generate_license (tp : TimeProvider) : License :=
  let start_date := tp.current_time
  let end_date := tp.future_time 10
  let license_id : LicenseId :=
    { start_date := start_date, end_date := end_date, issued_on := start_date }
  let add_ons := addon_plugins.enum.map (fun ip =>
    ({ id := "48-1337-DEAD-" ++ natS ip.1, code := ip.2, owner := license_id.id,
       start_date := start_date, end_date := end_date } : AddonPlugin))
  let license_id : LicenseId := { license_id with add_ons := add_ons }
  let payload : LicensePayload := { licenses := [license_id] }
  { payload := payload }

end LicenseGenerator

/-- The single license identification record of a generated license
(`payload.licenses[0]`). -/
def License.ident (l : License) : LicenseId := l.payload.licenses.headD {}

/-! ## Python values at the writer boundary (`json.dump` inputs) -/

/-- An exception escaping or caught inside `write_json`: `IOError`
(= `OSError`) from the filesystem, or `TypeError` from the JSON encoder. -/
inductive PyErr where
  | ioError (msg : String)
  | typeError (msg : String)
deriving DecidableEq, Repr

/-- An arbitrary Python value handed to `json.dump`: the JSON-encodable
constructors plus `pyObj`, an instance of some non-encodable class
(a set, a datetime, ...), carrying its type name. -/
inductive PyVal where
  | pyNone
  | pyBool (b : Bool)
  | pyInt (n : Int)
  | pyStr (s : String)
  | pyList (xs : List PyVal)
  | pyDict (fs : List (String × PyVal))
  | pyObj (typeName : String)

mutual

/-- The JSON encoder's view of a Python value: a `Json` tree, or the
`TypeError` CPython raises on the first non-encodable object. -/
def pyToJson : PyVal → Except PyErr Json
  | .pyNone => .ok .null
  | .pyBool b => .ok (.bool b)
  | .pyInt n => .ok (.num n)
  | .pyStr s => .ok (.str s)
  | .pyList xs => do
      let es ← pyToJsonList xs
      pure (.arr es)
  | .pyDict fs => do
      let ms ← pyToJsonPairs fs
      pure (.obj ms)
  | .pyObj typeName =>
      .error (.typeError ("Object of type " ++ typeName ++ " is not JSON serializable"))

/-- Encode list elements left to right, stopping at the first failure. -/
def pyToJsonList : List PyVal → Except PyErr (List Json)
  | [] => .ok []
  | x :: xs => do
      let j ← pyToJson x
      let js ← pyToJsonList xs
      pure (j :: js)

/-- Encode dict entries in insertion order, stopping at the first failure. -/
def pyToJsonPairs : List (String × PyVal) → Except PyErr (List (String × Json))
  | [] => .ok []
  | (k, v) :: fs => do
      let j ← pyToJson v
      let ms ← pyToJsonPairs fs
      pure ((k, j) :: ms)

end

mutual

/-- The Python value a `Json` tree denotes (`to_dict` results are
ordinary dicts/lists/strings/ints). -/
def jsonToPy : Json → PyVal
  | .null => .pyNone
  | .bool b => .pyBool b
  | .num n => .pyInt n
  | .str s => .pyStr s
  | .arr es => .pyList (jsonToPyList es)
  | .obj ms => .pyDict (jsonToPyPairs ms)

/-- Elementwise `jsonToPy` on array elements. -/
def jsonToPyList : List Json → List PyVal
  | [] => []
  | e :: es => jsonToPy e :: jsonToPyList es

/-- Entrywise `jsonToPy` on object members. -/
def jsonToPyPairs : List (String × Json) → List (String × PyVal)
  | [] => []
  | (k, v) :: ms => (k, jsonToPy v) :: jsonToPyPairs ms

end

/-! ## The writer boundary: `FileWriter.write_json` and `main` -/

/-- Everything observable about one `write_json` call: the value the call
returns (or the exception that escapes it), whether `open(filename, 'w')`
succeeded (truncating the destination), the complete content written when
the dump ran to the end, and the lines printed to standard error. -/
structure WriteResult where
  returned : Except PyErr Bool
  fileOpened : Bool
  fileContent : Option String
  stderrLines : List String

namespace FileWriter

/-- Static method `FileWriter.write_json`. The filesystem's disposition
is the explicit argument `openErr`: `some e` when `open(filename, 'w')`
raises `IOError` with text `e`, `none` when the destination is writable.
The `try` block catches exactly `IOError`, printing the diagnostic and
returning `False`; a `TypeError` from `json.dump` escapes after the file
was already opened and truncated. -/
def write_json (openErr : Option String) (data : PyVal) (filename : String) : WriteResult :=
  match openErr with
  | some e =>
      { returned := .ok false, fileOpened := false, fileContent := none,
        stderrLines := ["Failed to open file :( -> " ++ filename ++ "\n" ++ e] }
  | none =>
      match pyToJson data with
      | .ok j =>
          { returned := .ok true, fileOpened := true, fileContent := some (dumps j),
            stderrLines := [] }
      | .error err =>
          { returned := .error err, fileOpened := true, fileContent := none,
            stderrLines := [] }

end FileWriter

/-- Everything observable about one `main()` run: the exception that
escapes it, or its return value together with standard output and the
writer's observable effects. -/
structure MainResult where
  returned : Except PyErr Nat
  stdoutLines : List String
  writer : WriteResult

/-- The `main` driver, over the clock value `now` read by the default
provider and the filesystem disposition `openErr` of `idapro.hexlic`. -/
def main (now : Nat) (openErr : Option String) : MainResult :=
  let license := LicenseGenerator.generate_license (DefaultTimeProvider.provider now)
  let wr := FileWriter.write_json openErr (jsonToPy license.to_dict) "idapro.hexlic"
  match wr.returned with
  | .ok true =>
      { returned := .ok 0, stdoutLines := ["License file generated: idapro.hexlic :D"],
        writer := wr }
  | .ok false => { returned := .ok 1, stdoutLines := [], writer := wr }
  | .error e => { returned := .error e, stdoutLines := [], writer := wr }

/-! ## The decoder: `json.loads` on whitespace-free documents -/

/-- Decimal digit test. -/
def isDigitC (c : Char) : Bool := 48 ≤ c.toNat && c.toNat ≤ 57

/-- Accumulate a maximal run of decimal digits. -/
def digitsRun : List Char → Nat → Nat × List Char
  | c :: t, acc => if isDigitC c then digitsRun t (acc * 10 + (c.toNat - 48)) else (acc, c :: t)
  | [], acc => (acc, [])

/-- Value of one hex digit character, upper or lower case. -/
def hexVal (c : Char) : Option Nat :=
  if 48 ≤ c.toNat && c.toNat ≤ 57 then some (c.toNat - 48)
  else if 97 ≤ c.toNat && c.toNat ≤ 102 then some (c.toNat - 87)
  else if 65 ≤ c.toNat && c.toNat ≤ 70 then some (c.toNat - 55)
  else none

/-- Value of a four-hex-digit escape payload. -/
def hex4 (a b c d : Char) : Option Nat := do
  let va ← hexVal a
  let vb ← hexVal b
  let vc ← hexVal c
  let vd ← hexVal d
  pure (((va * 16 + vb) * 16 + vc) * 16 + vd)

/-- Prepend a decoded character to a string-reader result. -/
def withChar (c : Char) (r : Option (List Char × List Char)) : Option (List Char × List Char) :=
  r.map (fun p => (c :: p.1, p.2))

/-- Decode one short escape character (the character after the
backslash, other than `u`). -/
def escDecode (e : Char) : Option Char :=
  if e = '"' then some '"'
  else if e = '\\' then some '\\'
  else if e = '/' then some '/'
  else if e = 'n' then some '\n'
  else if e = 'r' then some '\r'
  else if e = 't' then some '\t'
  else if e = 'b' then some (Char.ofNat 8)
  else if e = 'f' then some (Char.ofNat 12)
  else none

/-- After a high surrogate `n`, read the mandatory following low
surrogate escape and recombine both into one astral character. -/
def surrPair (n : Nat) : List Char → Option (Char × List Char)
  | e2 :: u2 :: a2 :: b2 :: c2 :: d2 :: t2 =>
    if e2 = '\\' && u2 = 'u' then
      (hex4 a2 b2 c2 d2).bind (fun m =>
        if 56320 ≤ m && m < 57344 then
          some (Char.ofNat (65536 + (n - 55296) * 1024 + (m - 56320)), t2)
        else none)
    else none
  | _ => none

/-- Read the payload of a `\u` escape: four hex digits, recombined with
a following low surrogate when they denote a high surrogate (a lone
surrogate is rejected: Lean characters exclude surrogates, and the
serializer never emits a lone one). -/
def uDecode : List Char → Option (Char × List Char)
  | a :: b :: c :: d :: t =>
    (hex4 a b c d).bind (fun n =>
      if n < 55296 || 57343 < n then
        if n < 1114112 then some (Char.ofNat n, t) else none
      else if n < 56320 then surrPair n t
      else none)
  | _ => none

/-- Decode the escape beginning after a backslash: the decoded character
and the remaining input. -/
def escSplit : List Char → Option (Char × List Char)
  | [] => none
  | e :: t2 => if e = 'u' then uDecode t2 else (escDecode e).map (fun ch => (ch, t2))

/-- Fuel-driven string-body reader (fuel bounds the number of decoded
characters; one unit per character). Returns the decoded characters and
the input following the closing quote. -/
def decStrF : Nat → List Char → Option (List Char × List Char)
  | 0, _ => none
  | fuel+1, cs =>
    match cs with
    | [] => none
    | c :: t =>
      if c = '"' then some ([], t)
      else if c = '\\' then (escSplit t).bind (fun p => withChar p.1 (decStrF fuel p.2))
      else withChar c (decStrF fuel t)

/-- Read a string body after its opening quote (ample fuel: a decoded
character consumes at least one input character). -/
def decStr (cs : List Char) : Option (List Char × List Char) := decStrF (cs.length + 1) cs

/-- Match an exact literal tail (used for `null`, `true`, `false`). -/
def dropLit : List Char → List Char → Option (List Char)
  | [], r => some r
  | x :: xs, c :: r => if c = x then dropLit xs r else none
  | _ :: _, [] => none

/-- Read a negative number body (input begins after the minus sign). -/
def negNum : List Char → Option (Json × List Char)
  | d :: t =>
    if isDigitC d then
      some (.num (-((digitsRun (d :: t) 0).1 : Int)), (digitsRun (d :: t) 0).2)
    else none
  | [] => none

mutual

/-- Fuel-driven strict JSON value reader (no interword whitespace, as in
every document this serializer produces). Returns the value and the
unconsumed input. -/
def decVal : Nat → List Char → Option (Json × List Char)
  | 0, _ => none
  | _+1, [] => none
  | fuel+1, c :: r =>
    if c = 'n' then (dropLit ['u', 'l', 'l'] r).map (fun r2 => (.null, r2))
    else if c = 't' then (dropLit ['r', 'u', 'e'] r).map (fun r2 => (.bool true, r2))
    else if c = 'f' then (dropLit ['a', 'l', 's', 'e'] r).map (fun r2 => (.bool false, r2))
    else if c = '"' then (decStr r).map (fun p => (.str (String.mk p.1), p.2))
    else if c = '-' then negNum r
    else if isDigitC c then
      some (.num ((digitsRun (c :: r) 0).1 : Int), (digitsRun (c :: r) 0).2)
    else if c = '[' then arrBody fuel r
    else if c = lcb then objBody fuel r
    else none
  termination_by fuel _ => (fuel, 0)

/-- Read the inside of an array (input begins after `'['`). -/
def arrBody : Nat → List Char → Option (Json × List Char)
  | fuel, x :: r2 =>
    if x = ']' then some (.arr [], r2)
    else (decItems fuel (x :: r2)).map (fun p => (.arr p.1, p.2))
  | _, [] => none
  termination_by fuel _ => (fuel, 2)

/-- Read the inside of an object (input begins after the opening curly
bracket). -/
def objBody : Nat → List Char → Option (Json × List Char)
  | fuel, x :: r2 =>
    if x = rcb then some (.obj [], r2)
    else (decPairs fuel (x :: r2)).map (fun p => (.obj p.1, p.2))
  | _, [] => none
  termination_by fuel _ => (fuel, 2)

/-- Read one-or-more comma-separated array elements up to `']'`. -/
def decItems : Nat → List Char → Option (List Json × List Char)
  | 0, _ => none
  | fuel+1, cs => (decVal fuel cs).bind (fun pv => itemsCont fuel pv.1 pv.2)
  termination_by fuel _ => (fuel, 0)

/-- Continue an element list from the separator after an element. -/
def itemsCont (fuel : Nat) (v : Json) : List Char → Option (List Json × List Char)
  | x :: r2 =>
    if x = ',' then (decItems fuel r2).map (fun p => (v :: p.1, p.2))
    else if x = ']' then some ([v], r2)
    else none
  | [] => none
  termination_by _ => (fuel, 1)

/-- Read one-or-more comma-separated `"key":value` members up to the
closing curly bracket. -/
def decPairs : Nat → List Char → Option (List (String × Json) × List Char)
  | 0, _ => none
  | fuel+1, c :: r =>
    if c = '"' then (decStr r).bind (fun pk => pairAfterKey fuel (String.mk pk.1) pk.2)
    else none
  | _+1, [] => none
  termination_by fuel _ => (fuel, 0)

/-- Continue a member after its key: expect `':'` then a value. -/
def pairAfterKey (fuel : Nat) (k : String) : List Char → Option (List (String × Json) × List Char)
  | x :: r2 =>
    if x = ':' then (decVal fuel r2).bind (fun pv => pairsCont fuel k pv.1 pv.2)
    else none
  | [] => none
  termination_by _ => (fuel, 3)

/-- Continue a member list from the separator after a member's value. -/
def pairsCont (fuel : Nat) (k : String) (v : Json) :
    List Char → Option (List (String × Json) × List Char)
  | x :: r4 =>
    if x = ',' then (decPairs fuel r4).map (fun p => ((k, v) :: p.1, p.2))
    else if x = rcb then some ([(k, v)], r4)
    else none
  | [] => none
  termination_by _ => (fuel, 2)

end

/-- Decode a complete document: the value must consume the whole input
(`json.loads` rejects trailing data). -/
def decode (s : String) : Option Json :=
  match decVal (s.data.length + 1) s.data with
  | some (j, []) => some j
  | _ => none

/-- Decode then re-encode with the same field order: the round trip the
specification promises to be the identity on serializer output. -/
def reencode (s : String) : Option String := (decode s).map dumps

/-- Test that a byte list does not begin with a decimal digit (the shape
of everything that may follow a serialized number). -/
def noDigitHead : List Char → Bool
  | [] => true
  | c :: _ => !isDigitC c

/-- Test that a string contains no space character. -/
def strNoSpace (s : String) : Bool := s.data.all (fun c => c != ' ')

mutual

/-- Test that no string anywhere in a value (keys included) contains a
space character. -/
def jsonNoSpace : Json → Bool
  | .null => true
  | .bool _ => true
  | .num _ => true
  | .str s => strNoSpace s
  | .arr es => listNoSpace es
  | .obj ms => pairsNoSpace ms

/-- Elementwise `jsonNoSpace`. -/
def listNoSpace : List Json → Bool
  | [] => true
  | e :: es => jsonNoSpace e && listNoSpace es

/-- Entrywise `jsonNoSpace`, keys included. -/
def pairsNoSpace : List (String × Json) → Bool
  | [] => true
  | (k, v) :: ms => strNoSpace k && jsonNoSpace v && pairsNoSpace ms

end

/-- Test that a string has the exact shape `YYYY-MM-DD HH:MM:SS`:
nineteen characters, digits in the numeric positions, the separators
`-`, a space, and `:` in theirs. -/
def isDTFormat (s : String) : Bool :=
  match s.data with
  | [y1, y2, y3, y4, s1, mo1, mo2, s2, d1, d2, s3, h1, h2, s4, mi1, mi2, s5, se1, se2] =>
    isDigitC y1 && isDigitC y2 && isDigitC y3 && isDigitC y4 && s1 == '-' &&
    isDigitC mo1 && isDigitC mo2 && s2 == '-' && isDigitC d1 && isDigitC d2 &&
    s3 == ' ' && isDigitC h1 && isDigitC h2 && s4 == ':' && isDigitC mi1 &&
    isDigitC mi2 && s5 == ':' && isDigitC se1 && isDigitC se2
  | _ => false

/-- Divide-and-conquer bounded check: `rangeAll f fuel lo w` tests
`f` on `[lo, lo + w)`, with recursion depth logarithmic in `w` (so the
kernel can evaluate it on wide ranges). -/
def rangeAll (f : Nat → Bool) : Nat → Nat → Nat → Bool
  | 0, _, w => w == 0
  | fuel+1, lo, w =>
    if w = 0 then true
    else if w = 1 then f lo
    else rangeAll f fuel lo (w / 2) && rangeAll f fuel (lo + w / 2) (w - w / 2)

/-- Day-of-year bound at one day-of-era value (the kernel-checked core
of the civil-date bounds). -/
def doyOk (D : Nat) : Bool :=
  decide (D - (365 * ((D - D / 1460 + D / 36524 - D / 146096) / 365)
      + ((D - D / 1460 + D / 36524 - D / 146096) / 365) / 4
      - ((D - D / 1460 + D / 36524 - D / 146096) / 365) / 100) ≤ 365)

/-- The fixed test double of the specification's first testable property:
`current_time()` returns 2024-01-01 midnight and `future_time(10)`
returns 2034-01-01 midnight. -/
def fixedProvider : TimeProvider :=
  { current_time := "2024-01-01 00:00:00", future_time := fun _ => "2034-01-01 00:00:00" }

/-! ## Lemmas: decimal numerals -/

theorem natCharsF_stable :
    ∀ f1 n f2, n < f1 → n < f2 → natCharsF f1 n = natCharsF f2 n := by
  intro f1
  induction f1 with
  | zero => intro n f2 h; omega
  | succ f ih =>
    intro n f2 h1 h2
    match f2, h2 with
    | f2 + 1, _ =>
      show natCharsF (f + 1) n = natCharsF (f2 + 1) n
      simp only [natCharsF]
      by_cases h10 : n < 10
      · simp [h10]
      · have hd : n / 10 < f := by omega
        have hd2 : n / 10 < f2 := by omega
        simp only [h10, if_false]
        rw [ih (n / 10) f2 hd hd2]

/-- The recursion `natChars` satisfies, fuel out of sight. -/
theorem natChars_eq (n : Nat) :
    natChars n = if n < 10 then [digitC n] else natChars (n / 10) ++ [digitC (n % 10)] := by
  show natCharsF (n + 1) n = _
  simp only [natCharsF]
  by_cases h10 : n < 10
  · simp [h10]
  · simp only [h10, if_false]
    have : natCharsF n (n / 10) = natCharsF (n / 10 + 1) (n / 10) :=
      natCharsF_stable n (n / 10) (n / 10 + 1) (by omega) (by omega)
    rw [this]; rfl

theorem digitC_toNat (d : Nat) (h : d < 10) : (digitC d).toNat = 48 + d := by
  interval_cases d <;> decide

theorem isDigitC_digitC (d : Nat) (h : d < 10) : isDigitC (digitC d) = true := by
  interval_cases d <;> decide

theorem natChars_digits (n : Nat) : ∀ c ∈ natChars n, isDigitC c = true := by
  induction n using Nat.strong_induction_on with
  | _ n ih =>
    rw [natChars_eq]
    by_cases h10 : n < 10
    · simp only [h10, if_true, List.mem_singleton]
      rintro c rfl
      exact isDigitC_digitC n h10
    · simp only [h10, if_false, List.mem_append, List.mem_singleton]
      rintro c (hc | rfl)
      · exact ih (n / 10) (by omega) c hc
      · exact isDigitC_digitC (n % 10) (by omega)

theorem natChars_cons (n : Nat) :
    ∃ c t, natChars n = c :: t ∧ isDigitC c = true := by
  induction n using Nat.strong_induction_on with
  | _ n ih =>
    rw [natChars_eq]
    by_cases h10 : n < 10
    · exact ⟨digitC n, [], by simp [h10], isDigitC_digitC n h10⟩
    · obtain ⟨c, t, hct, hd⟩ := ih (n / 10) (by omega)
      exact ⟨c, t ++ [digitC (n % 10)], by simp [h10, hct], hd⟩

theorem digitsRun_natChars (n : Nat) :
    ∀ acc rest, digitsRun (natChars n ++ rest) acc
      = digitsRun rest (acc * 10 ^ (natChars n).length + n) := by
  induction n using Nat.strong_induction_on with
  | _ n ih =>
    intro acc rest
    by_cases h10 : n < 10
    · rw [natChars_eq]
      simp only [h10, if_true, List.singleton_append, List.length_singleton]
      show digitsRun (digitC n :: rest) acc = _
      rw [digitsRun]
      simp [isDigitC_digitC n h10, digitC_toNat n h10]
    · have hrec := natChars_eq n
      simp only [h10, if_false] at hrec
      rw [hrec]
      have hlen : (natChars (n / 10) ++ [digitC (n % 10)]).length
          = (natChars (n / 10)).length + 1 := by simp
      rw [List.append_assoc, ih (n / 10) (by omega), List.singleton_append, digitsRun]
      simp only [isDigitC_digitC (n % 10) (by omega), if_true, hlen,
        digitC_toNat (n % 10) (by omega)]
      congr 1
      have hdm := Nat.div_add_mod n 10
      have : 10 ^ ((natChars (n / 10)).length + 1) = 10 ^ (natChars (n / 10)).length * 10 :=
        pow_succ 10 _
      rw [this]
      ring_nf
      omega

theorem digitsRun_stop (acc : Nat) (rest : List Char) (h : noDigitHead rest = true) :
    digitsRun rest acc = (acc, rest) := by
  cases rest with
  | nil => rfl
  | cons c t =>
    simp only [noDigitHead, Bool.not_eq_true'] at h
    rw [digitsRun, h]
    simp

/-- Reading the digits of `n` followed by a non-digit recovers `n`. -/
theorem digitsRun_natChars_stop (n : Nat) (rest : List Char) (h : noDigitHead rest = true) :
    digitsRun (natChars n ++ rest) 0 = (n, rest) := by
  rw [digitsRun_natChars, digitsRun_stop _ _ h]
  simp

/-! ## Lemmas: string escaping and its inverse -/

theorem char_valid (c : Char) : c.toNat < 55296 ∨ (57343 < c.toNat ∧ c.toNat < 1114112) := by
  have h := c.valid
  simp only [UInt32.isValidChar, Nat.isValidChar] at h
  simp only [Char.toNat]
  omega

theorem hexVal_hexC (d : Nat) (h : d < 16) : hexVal (hexC d) = some d := by
  interval_cases d <;> decide

theorem hex4_uEsc4 (n : Nat) (h : n < 65536) :
    hex4 (hexC (n / 4096 % 16)) (hexC (n / 256 % 16)) (hexC (n / 16 % 16)) (hexC (n % 16))
      = some n := by
  rw [hex4]
  rw [hexVal_hexC _ (by omega), hexVal_hexC _ (by omega), hexVal_hexC _ (by omega),
    hexVal_hexC _ (by omega)]
  show some _ = some n
  congr 1
  omega

/-- Computation shape of `uDecode` on four hex characters and a rest. -/
theorem uDecode_cons (a b c d : Char) (t : List Char) :
    uDecode (a :: b :: c :: d :: t)
      = (hex4 a b c d).bind (fun n =>
          if n < 55296 || 57343 < n then
            if n < 1114112 then some (Char.ofNat n, t) else none
          else if n < 56320 then surrPair n t
          else none) := rfl

/-- A `\uXXXX` payload outside the surrogate range decodes to its code
point. -/
theorem uDecode_hex (a b c d : Char) (t : List Char) (n : Nat)
    (hh : hex4 a b c d = some n) (hs : n < 55296 ∨ 57343 < n) (hv : n < 1114112) :
    uDecode (a :: b :: c :: d :: t) = some (Char.ofNat n, t) := by
  rw [uDecode_cons, hh]
  show (if (decide (n < 55296) || decide (57343 < n)) = true then _ else _) = _
  rw [if_pos (by rcases hs with h | h <;> simp [h]), if_pos hv]

/-- A high surrogate payload hands over to the paired-low-surrogate
reader. -/
theorem uDecode_high (a b c d : Char) (t : List Char) (n : Nat)
    (hh : hex4 a b c d = some n) (h1 : 55296 ≤ n) (h2 : n < 56320) :
    uDecode (a :: b :: c :: d :: t) = surrPair n t := by
  rw [uDecode_cons, hh]
  show (if (decide (n < 55296) || decide (57343 < n)) = true then _ else _) = _
  rw [if_neg (by simp only [Bool.or_eq_true, decide_eq_true_eq]; omega), if_pos h2]

/-- Computation shape of `surrPair` on a following escape. -/
theorem surrPair_cons (n : Nat) (a2 b2 c2 d2 : Char) (t2 : List Char) :
    surrPair n ('\\' :: 'u' :: a2 :: b2 :: c2 :: d2 :: t2)
      = (hex4 a2 b2 c2 d2).bind (fun m =>
          if 56320 ≤ m && m < 57344 then
            some (Char.ofNat (65536 + (n - 55296) * 1024 + (m - 56320)), t2)
          else none) := rfl

/-- Reading one emitted `\uXXXX` escape for a non-surrogate code unit. -/
theorem uDecode_uEsc4 (n : Nat) (h : n < 55296 ∨ (57343 < n ∧ n < 65536)) (k : List Char) :
    uDecode (hexC (n / 4096 % 16) :: hexC (n / 256 % 16) :: hexC (n / 16 % 16)
        :: hexC (n % 16) :: k)
      = some (Char.ofNat n, k) :=
  uDecode_hex _ _ _ _ _ n (hex4_uEsc4 n (by omega)) (by omega) (by omega)

/-- Reading an emitted surrogate pair recombines it to the original
astral code point. -/
theorem uDecode_surrogatePair (n : Nat) (h1 : 65536 ≤ n) (h2 : n < 1114112) (k : List Char) :
    uDecode (hexC ((55296 + (n - 65536) / 1024) / 4096 % 16)
        :: hexC ((55296 + (n - 65536) / 1024) / 256 % 16)
        :: hexC ((55296 + (n - 65536) / 1024) / 16 % 16)
        :: hexC ((55296 + (n - 65536) / 1024) % 16)
        :: (uEsc4 (56320 + (n - 65536) % 1024) ++ k))
      = some (Char.ofNat n, k) := by
  have hq : (n - 65536) / 1024 ≤ 1023 := by omega
  have hmod : (n - 65536) % 1024 < 1024 := Nat.mod_lt _ (by omega)
  have hhi : 55296 + (n - 65536) / 1024 < 65536 := by omega
  have hlo : 56320 + (n - 65536) % 1024 < 65536 := by omega
  rw [uDecode_high _ _ _ _ _ _ (hex4_uEsc4 _ hhi) (by omega) (by omega)]
  rw [uEsc4]
  simp only [List.cons_append, List.nil_append]
  rw [surrPair_cons, hex4_uEsc4 _ hlo, Option.some_bind]
  rw [if_pos (by simp only [Bool.and_eq_true, decide_eq_true_eq]; omega)]
  have harg : 65536 + (55296 + (n - 65536) / 1024 - 55296) * 1024
      + (56320 + (n - 65536) % 1024 - 56320) = n := by
    have hdm := Nat.div_add_mod (n - 65536) 1024
    omega
  rw [harg]

/-- An escape beginning with `u` is a `\u` escape. -/
theorem escSplit_u (t2 : List Char) : escSplit ('u' :: t2) = uDecode t2 := rfl

/-- Computation shape of the fuel-driven string reader on a cons cell. -/
theorem decStrF_cons (f : Nat) (c : Char) (t : List Char) :
    decStrF (f + 1) (c :: t)
      = if c = '"' then some ([], t)
        else if c = '\\' then (escSplit t).bind (fun p => withChar p.1 (decStrF f p.2))
        else withChar c (decStrF f t) := rfl

/-- One encoded character followed by further input reads back as that
character, consuming one unit of fuel. -/
theorem decStrF_escape (c : Char) (f : Nat) (k : List Char) :
    decStrF (f + 1) (escape c ++ k) = withChar c (decStrF f k) := by
  by_cases h1 : c = '"'
  · subst h1; rfl
  by_cases h2 : c = '\\'
  · subst h2; rfl
  by_cases h3 : c = '\n'
  · subst h3; rfl
  by_cases h4 : c = '\r'
  · subst h4; rfl
  by_cases h5 : c = '\t'
  · subst h5; rfl
  by_cases h6 : c.toNat = 8
  · have hc : c = Char.ofNat 8 := by rw [← Char.ofNat_toNat c, h6]
    subst hc; rfl
  by_cases h7 : c.toNat = 12
  · have hc : c = Char.ofNat 12 := by rw [← Char.ofNat_toNat c, h7]
    subst hc; rfl
  by_cases h8 : c.toNat < 32
  · rw [escape]
    simp only [if_neg h1, if_neg h2, if_neg h3, if_neg h4, if_neg h5, if_neg h6, if_neg h7,
      if_pos h8]
    rw [uEsc4]
    simp only [List.cons_append, List.nil_append]
    rw [decStrF_cons, if_neg (by decide), if_pos rfl, escSplit_u,
      uDecode_uEsc4 c.toNat (by omega) k, Option.some_bind, Char.ofNat_toNat]
  by_cases h9 : c.toNat < 127
  · rw [escape]
    simp only [if_neg h1, if_neg h2, if_neg h3, if_neg h4, if_neg h5, if_neg h6, if_neg h7,
      if_neg h8, if_pos h9]
    show decStrF (f + 1) (c :: k) = _
    rw [decStrF_cons, if_neg h1, if_neg h2]
  by_cases h10 : c.toNat < 65536
  · rw [escape]
    simp only [if_neg h1, if_neg h2, if_neg h3, if_neg h4, if_neg h5, if_neg h6, if_neg h7,
      if_neg h8, if_neg h9, if_pos h10]
    have hv := char_valid c
    rw [uEsc4]
    simp only [List.cons_append, List.nil_append]
    rw [decStrF_cons, if_neg (by decide), if_pos rfl, escSplit_u,
      uDecode_uEsc4 c.toNat (by omega) k, Option.some_bind, Char.ofNat_toNat]
  · rw [escape]
    simp only [if_neg h1, if_neg h2, if_neg h3, if_neg h4, if_neg h5, if_neg h6, if_neg h7,
      if_neg h8, if_neg h9, if_neg h10]
    have hv := char_valid c
    rw [List.append_assoc, uEsc4]
    simp only [List.cons_append, List.nil_append]
    rw [decStrF_cons, if_neg (by decide), if_pos rfl, escSplit_u]
    rw [uDecode_surrogatePair c.toNat (by omega) (by omega) k, Option.some_bind,
      Char.ofNat_toNat]

/-- A whole encoded string body followed by the closing quote reads back
as the body, given fuel for its characters. -/
theorem decStrF_escBody (l : List Char) :
    ∀ f rest, l.length ≤ f → decStrF (f + 1) (escBody l ++ '"' :: rest) = some (l, rest) := by
  induction l with
  | nil => intro f rest _; rfl
  | cons c cs ih =>
    intro f rest hf
    simp only [List.length_cons] at hf
    cases f with
    | zero => omega
    | succ f =>
      rw [escBody, List.append_assoc, decStrF_escape, ih f rest (by omega)]
      rfl

theorem escape_length_pos (c : Char) : 1 ≤ (escape c).length := by
  rw [escape]
  by_cases h1 : c = '"'
  · simp [h1]
  by_cases h2 : c = '\\'
  · simp [h1, h2]
  by_cases h3 : c = '\n'
  · simp [h1, h2, h3]
  by_cases h4 : c = '\r'
  · simp [h1, h2, h3, h4]
  by_cases h5 : c = '\t'
  · simp [h1, h2, h3, h4, h5]
  by_cases h6 : c.toNat = 8
  · simp [h1, h2, h3, h4, h5, h6]
  by_cases h7 : c.toNat = 12
  · simp [h1, h2, h3, h4, h5, h6, h7]
  by_cases h8 : c.toNat < 32
  · simp [h1, h2, h3, h4, h5, h6, h7, h8, uEsc4]
  by_cases h9 : c.toNat < 127
  · simp [h1, h2, h3, h4, h5, h6, h7, h8, h9]
  by_cases h10 : c.toNat < 65536
  · simp [h1, h2, h3, h4, h5, h6, h7, h8, h9, h10, uEsc4]
  · simp [h1, h2, h3, h4, h5, h6, h7, h8, h9, h10, uEsc4]

theorem escBody_length (l : List Char) : l.length ≤ (escBody l).length := by
  induction l with
  | nil => simp [escBody]
  | cons c cs ih =>
    rw [escBody]
    simp only [List.length_append, List.length_cons]
    have := escape_length_pos c
    omega

/-- A whole encoded string body followed by the closing quote reads back
as the body. -/
theorem decStr_escBody (l : List Char) (rest : List Char) :
    decStr (escBody l ++ '"' :: rest) = some (l, rest) := by
  rw [decStr]
  apply decStrF_escBody
  have := escBody_length l
  simp only [List.length_append, List.length_cons]
  omega

/-! ## Lemmas: the value reader inverts the serializer -/

theorem String.mk_data (s : String) : String.mk s.data = s := by
  cases s
  rfl

/-- A digit head is none of the characters the value reader tests
before its number branches. -/
theorem digit_head_facts (c : Char) (h : isDigitC c = true) :
    ¬ c = 'n' ∧ ¬ c = 't' ∧ ¬ c = 'f' ∧ ¬ c = '"' ∧ ¬ c = '-' := by
  refine ⟨?_, ?_, ?_, ?_, ?_⟩ <;> intro hc <;> subst hc <;> simp [isDigitC] at h

/-- Every emitted value begins with a character other than `']'` (the
array reader peeks one character for the empty case). -/
theorem emit_head (j : Json) : ∃ c t, emit j = c :: t ∧ ¬ c = ']' := by
  cases j with
  | null => exact ⟨'n', _, rfl, by decide⟩
  | bool b =>
    cases b with
    | false => exact ⟨'f', _, rfl, by decide⟩
    | true => exact ⟨'t', _, rfl, by decide⟩
  | num n =>
    show ∃ c t, intChars n = c :: t ∧ ¬ c = ']'
    rw [intChars]
    by_cases hn : n < 0
    · exact ⟨'-', natChars (-n).toNat, by simp [hn], by decide⟩
    · obtain ⟨c, t, hct, hd⟩ := natChars_cons n.toNat
      refine ⟨c, t, by simp [hn, hct], ?_⟩
      intro hc
      subst hc
      simp [isDigitC] at hd
  | str s => exact ⟨'"', _, rfl, by decide⟩
  | arr es => exact ⟨'[', _, rfl, by decide⟩
  | obj ms => exact ⟨lcb, _, rfl, by decide⟩

theorem emit_length_pos (j : Json) : 1 ≤ (emit j).length := by
  obtain ⟨c, t, hct, _⟩ := emit_head j
  simp [hct]

/-- Reading the serialization of a nonnegative number. -/
theorem decVal_num_nonneg (n : Int) (hn : ¬ n < 0) (f : Nat) (rest : List Char)
    (hr : noDigitHead rest = true) :
    decVal (f + 1) (emit (.num n) ++ rest) = some (.num n, rest) := by
  obtain ⟨c, t, hct, hd⟩ := natChars_cons n.toNat
  have hfacts := digit_head_facts c hd
  have harg : emit (.num n) ++ rest = c :: (t ++ rest) := by
    show intChars n ++ rest = _
    rw [intChars, if_neg hn, hct]
    simp
  rw [harg, decVal, if_neg hfacts.1, if_neg hfacts.2.1, if_neg hfacts.2.2.1,
    if_neg hfacts.2.2.2.1, if_neg hfacts.2.2.2.2, if_pos hd]
  have hback : c :: (t ++ rest) = natChars n.toNat ++ rest := by rw [hct]; simp
  rw [hback, digitsRun_natChars_stop n.toNat rest hr]
  have : (n.toNat : Int) = n := Int.toNat_of_nonneg (by omega)
  rw [this]

/-- Reading the serialization of a negative number. -/
theorem decVal_num_neg (n : Int) (hn : n < 0) (f : Nat) (rest : List Char)
    (hr : noDigitHead rest = true) :
    decVal (f + 1) (emit (.num n) ++ rest) = some (.num n, rest) := by
  obtain ⟨c, t, hct, hd⟩ := natChars_cons (-n).toNat
  have harg : emit (.num n) ++ rest = '-' :: (natChars (-n).toNat ++ rest) := by
    show intChars n ++ rest = _
    rw [intChars, if_pos hn]
    simp
  rw [harg, decVal]
  rw [if_neg (by decide), if_neg (by decide), if_neg (by decide), if_neg (by decide),
    if_pos rfl]
  rw [hct]
  show negNum (c :: (t ++ rest)) = _
  rw [negNum, if_pos hd]
  have hback : c :: (t ++ rest) = natChars (-n).toNat ++ rest := by rw [hct]; simp
  rw [hback, digitsRun_natChars_stop (-n).toNat rest hr]
  have : ((-n).toNat : Int) = -n := Int.toNat_of_nonneg (by omega)
  rw [this]
  simp

/-- Reading an emitted string literal. -/
theorem decVal_str (s : String) (f : Nat) (rest : List Char) :
    decVal (f + 1) (emit (.str s) ++ rest) = some (.str s, rest) := by
  have harg : emit (.str s) ++ rest = '"' :: (escBody s.data ++ '"' :: rest) := by
    show encStr s ++ rest = _
    rw [encStr]
    simp
  rw [harg, decVal, if_neg (by decide), if_neg (by decide), if_neg (by decide), if_pos rfl,
    decStr_escBody, Option.map_some', String.mk_data]

theorem noDigitHead_rbrk (rest : List Char) : noDigitHead (']' :: rest) = true := rfl

theorem noDigitHead_comma (rest : List Char) : noDigitHead (',' :: rest) = true := rfl

theorem noDigitHead_rcb (rest : List Char) : noDigitHead (rcb :: rest) = true := rfl

mutual

/-- Round trip, values: reading an emitted value followed by a rest that
does not begin with a digit recovers the value and the rest. -/
theorem rt_val : ∀ (j : Json) (fuel : Nat) (rest : List Char),
    (emit j).length < fuel → noDigitHead rest = true →
    decVal fuel (emit j ++ rest) = some (j, rest)
  | .null, fuel, rest, hf, _ => by
    cases fuel with
    | zero => exact absurd hf (Nat.not_lt_zero _)
    | succ f =>
      have harg : emit Json.null ++ rest = 'n' :: 'u' :: 'l' :: 'l' :: rest := rfl
      rw [harg, decVal]
      rfl
  | .bool true, fuel, rest, hf, _ => by
    cases fuel with
    | zero => exact absurd hf (Nat.not_lt_zero _)
    | succ f =>
      have harg : emit (Json.bool true) ++ rest = 't' :: 'r' :: 'u' :: 'e' :: rest := rfl
      rw [harg, decVal]
      rfl
  | .bool false, fuel, rest, hf, _ => by
    cases fuel with
    | zero => exact absurd hf (Nat.not_lt_zero _)
    | succ f =>
      have harg : emit (Json.bool false) ++ rest = 'f' :: 'a' :: 'l' :: 's' :: 'e' :: rest := rfl
      rw [harg, decVal]
      rfl
  | .num n, fuel, rest, hf, hr => by
    cases fuel with
    | zero => exact absurd hf (Nat.not_lt_zero _)
    | succ f =>
      by_cases hn : n < 0
      · exact decVal_num_neg n hn f rest hr
      · exact decVal_num_nonneg n hn f rest hr
  | .str s, fuel, rest, hf, _ => by
    cases fuel with
    | zero => exact absurd hf (Nat.not_lt_zero _)
    | succ f => exact decVal_str s f rest
  | .arr [], fuel, rest, hf, _ => by
    cases fuel with
    | zero => exact absurd hf (Nat.not_lt_zero _)
    | succ f =>
      have harg : emit (Json.arr []) ++ rest = '[' :: ']' :: rest := rfl
      rw [harg, decVal, if_neg (by decide), if_neg (by decide), if_neg (by decide),
        if_neg (by decide), if_neg (by decide), if_neg (by decide), if_pos rfl, arrBody,
        if_pos rfl]
  | .arr (e :: es), fuel, rest, hf, _ => by
    cases fuel with
    | zero => exact absurd hf (Nat.not_lt_zero _)
    | succ f =>
      obtain ⟨c0, t0, hc0, hne0⟩ := emit_head e
      obtain ⟨t1, ht1⟩ : ∃ t1, emitItems (e :: es) = c0 :: t1 := by
        cases es with
        | nil => exact ⟨t0, by rw [show emitItems [e] = emit e from rfl, hc0]⟩
        | cons x xs =>
          refine ⟨t0 ++ ',' :: emitItems (x :: xs), ?_⟩
          rw [show emitItems (e :: x :: xs) = emit e ++ ',' :: emitItems (x :: xs) from rfl,
            hc0]
          rfl
      have harg : emit (Json.arr (e :: es)) ++ rest
          = '[' :: (emitItems (e :: es) ++ ']' :: rest) := by
        rw [show emit (Json.arr (e :: es)) = '[' :: emitItems (e :: es) ++ [']'] from rfl]
        simp
      rw [harg, decVal, if_neg (by decide), if_neg (by decide), if_neg (by decide),
        if_neg (by decide), if_neg (by decide), if_neg (by decide), if_pos rfl]
      rw [show emitItems (e :: es) ++ ']' :: rest = c0 :: (t1 ++ ']' :: rest) by
        rw [ht1]; rfl]
      rw [arrBody, if_neg hne0]
      rw [show c0 :: (t1 ++ ']' :: rest) = emitItems (e :: es) ++ ']' :: rest by
        rw [ht1]; rfl]
      have hlen : (emitItems (e :: es)).length + 1 < f := by
        have : (emit (Json.arr (e :: es))).length
            = (emitItems (e :: es)).length + 2 := by
          rw [show emit (Json.arr (e :: es)) = '[' :: emitItems (e :: es) ++ [']'] from rfl]
          simp
        omega
      rw [rt_items e es f rest hlen (by assumption), Option.map_some']
  | .obj [], fuel, rest, hf, _ => by
    cases fuel with
    | zero => exact absurd hf (Nat.not_lt_zero _)
    | succ f =>
      have harg : emit (Json.obj []) ++ rest = lcb :: rcb :: rest := rfl
      rw [harg, decVal, if_neg (by decide), if_neg (by decide), if_neg (by decide),
        if_neg (by decide), if_neg (by decide), if_neg (by decide), if_neg (by decide),
        if_pos rfl, objBody, if_pos rfl]
  | .obj ((k, v) :: ms), fuel, rest, hf, _ => by
    cases fuel with
    | zero => exact absurd hf (Nat.not_lt_zero _)
    | succ f =>
      obtain ⟨t1, ht1⟩ : ∃ t1, emitPairs ((k, v) :: ms) = '"' :: t1 := by
        cases ms with
        | nil =>
          refine ⟨escBody k.data ++ ['"'] ++ ':' :: emit v, ?_⟩
          rw [show emitPairs [(k, v)] = encStr k ++ ':' :: emit v from rfl, encStr]
          simp
        | cons p ms2 =>
          refine ⟨escBody k.data ++ ['"'] ++ ':' :: emit v ++ ',' :: emitPairs (p :: ms2), ?_⟩
          rw [show emitPairs ((k, v) :: p :: ms2)
              = encStr k ++ ':' :: emit v ++ ',' :: emitPairs (p :: ms2) from rfl, encStr]
          simp
      have harg : emit (Json.obj ((k, v) :: ms)) ++ rest
          = lcb :: (emitPairs ((k, v) :: ms) ++ rcb :: rest) := by
        rw [show emit (Json.obj ((k, v) :: ms)) = lcb :: emitPairs ((k, v) :: ms) ++ [rcb]
          from rfl]
        simp
      rw [harg, decVal, if_neg (by decide), if_neg (by decide), if_neg (by decide),
        if_neg (by decide), if_neg (by decide), if_neg (by decide), if_neg (by decide),
        if_pos rfl]
      rw [show emitPairs ((k, v) :: ms) ++ rcb :: rest = '"' :: (t1 ++ rcb :: rest) by
        rw [ht1]; rfl]
      rw [objBody, if_neg (by decide)]
      rw [show '"' :: (t1 ++ rcb :: rest) = emitPairs ((k, v) :: ms) ++ rcb :: rest by
        rw [ht1]; rfl]
      have hlen : (emitPairs ((k, v) :: ms)).length + 1 < f := by
        have : (emit (Json.obj ((k, v) :: ms))).length
            = (emitPairs ((k, v) :: ms)).length + 2 := by
          rw [show emit (Json.obj ((k, v) :: ms)) = lcb :: emitPairs ((k, v) :: ms) ++ [rcb]
            from rfl]
          simp
        omega
      rw [rt_pairs k v ms f rest hlen (by assumption), Option.map_some']
  termination_by j _ _ _ _ => sizeOf j

/-- Round trip, array element lists: reading the emitted elements up to
the closing `']'` recovers them. -/
theorem rt_items : ∀ (e : Json) (es : List Json) (fuel : Nat) (rest : List Char),
    (emitItems (e :: es)).length + 1 < fuel → noDigitHead rest = true →
    decItems fuel (emitItems (e :: es) ++ ']' :: rest) = some (e :: es, rest)
  | e, [], fuel, rest, hf, hr => by
    cases fuel with
    | zero => exact absurd hf (Nat.not_lt_zero _)
    | succ f =>
      rw [show emitItems [e] = emit e from rfl] at hf ⊢
      rw [decItems, rt_val e f (']' :: rest) (by omega) (noDigitHead_rbrk rest),
        Option.some_bind, itemsCont, if_neg (by decide), if_pos rfl]
  | e, x :: xs, fuel, rest, hf, hr => by
    cases fuel with
    | zero => exact absurd hf (Nat.not_lt_zero _)
    | succ f =>
      rw [show emitItems (e :: x :: xs) = emit e ++ ',' :: emitItems (x :: xs) from rfl]
        at hf ⊢
      simp only [List.length_append, List.length_cons] at hf
      rw [List.append_assoc, List.cons_append]
      rw [decItems,
        rt_val e f (',' :: (emitItems (x :: xs) ++ ']' :: rest)) (by omega)
          (noDigitHead_comma _),
        Option.some_bind, itemsCont, if_pos rfl,
        rt_items x xs f rest (by omega) hr, Option.map_some']
  termination_by e es _ _ _ _ => sizeOf e + sizeOf es

/-- Round trip, object member lists: reading the emitted members up to
the closing curly bracket recovers them. -/
theorem rt_pairs : ∀ (k : String) (v : Json) (ms : List (String × Json)) (fuel : Nat)
    (rest : List Char),
    (emitPairs ((k, v) :: ms)).length + 1 < fuel → noDigitHead rest = true →
    decPairs fuel (emitPairs ((k, v) :: ms) ++ rcb :: rest) = some ((k, v) :: ms, rest)
  | k, v, [], fuel, rest, hf, hr => by
    cases fuel with
    | zero => exact absurd hf (Nat.not_lt_zero _)
    | succ f =>
      rw [show emitPairs [(k, v)] = encStr k ++ ':' :: emit v from rfl] at hf ⊢
      rw [encStr] at hf ⊢
      simp only [List.length_append, List.length_cons, List.cons_append,
        List.append_assoc, List.nil_append] at hf ⊢
      rw [decPairs, if_pos rfl]
      rw [decStr_escBody, Option.some_bind, String.mk_data, pairAfterKey, if_pos rfl,
        rt_val v f (rcb :: rest) (by omega) (noDigitHead_rcb rest),
        Option.some_bind, pairsCont, if_neg (by decide), if_pos rfl]
  | k, v, (k2, v2) :: ms2, fuel, rest, hf, hr => by
    cases fuel with
    | zero => exact absurd hf (Nat.not_lt_zero _)
    | succ f =>
      rw [show emitPairs ((k, v) :: (k2, v2) :: ms2)
          = encStr k ++ ':' :: emit v ++ ',' :: emitPairs ((k2, v2) :: ms2) from rfl] at hf ⊢
      rw [encStr] at hf ⊢
      simp only [List.length_append, List.length_cons, List.cons_append,
        List.append_assoc, List.nil_append] at hf ⊢
      rw [decPairs, if_pos rfl]
      rw [decStr_escBody, Option.some_bind, String.mk_data, pairAfterKey, if_pos rfl,
        rt_val v f (',' :: (emitPairs ((k2, v2) :: ms2) ++ rcb :: rest)) (by omega)
          (noDigitHead_comma _),
        Option.some_bind, pairsCont, if_pos rfl,
        rt_pairs k2 v2 ms2 f rest (by omega) hr, Option.map_some']
  termination_by _ v ms _ _ _ _ => sizeOf v + sizeOf ms + 1

end

/-- Decoding the serialized form of any value recovers the value, with
no input left over. -/
theorem decode_dumps (j : Json) : decode (dumps j) = some j := by
  have hrt := rt_val j ((emit j).length + 1) [] (by omega) rfl
  rw [List.append_nil] at hrt
  rw [decode]
  show (match decVal ((emit j).length + 1) (emit j) with
    | some (j, []) => some j
    | _ => none) = some j
  rw [hrt]

/-- Decode-then-encode is the identity on every serializer output. -/
theorem reencode_dumps (j : Json) : reencode (dumps j) = some (dumps j) := by
  rw [reencode, decode_dumps, Option.map_some']

/-! ## Lemmas: every emitted byte is printable ASCII, and whitespace only
comes from space characters inside the value's own strings -/

theorem hexC_range (d : Nat) (h : d < 16) : 48 ≤ (hexC d).toNat ∧ (hexC d).toNat ≤ 102 := by
  interval_cases d <;> decide

/-- Every character of an encoded string body comes from encoding one of
the body's characters. -/
theorem escBody_mem (l : List Char) (x : Char) (hx : x ∈ escBody l) :
    ∃ c ∈ l, x ∈ escape c := by
  induction l with
  | nil => simp [escBody] at hx
  | cons c cs ih =>
    rw [escBody] at hx
    rcases List.mem_append.mp hx with h | h
    · exact ⟨c, by simp, h⟩
    · obtain ⟨c2, hc2, hxc2⟩ := ih h
      exact ⟨c2, by simp [hc2], hxc2⟩

/-- Everything the character encoder emits is printable ASCII, and it
emits a space only for a space. -/
theorem escape_char_facts (c x : Char) (hx : x ∈ escape c) :
    32 ≤ x.toNat ∧ x.toNat ≤ 126 ∧ (x.toNat = 32 → c = x) := by
  have huesc : ∀ n, n < 65536 → x ∈ uEsc4 n → 32 ≤ x.toNat ∧ x.toNat ≤ 126 ∧ ¬ x.toNat = 32 := by
    intro n hn hu
    simp only [uEsc4, List.mem_cons, List.mem_singleton, List.not_mem_nil, or_false] at hu
    have hhex : ∀ m : Nat, 32 ≤ (hexC (m % 16)).toNat ∧ (hexC (m % 16)).toNat ≤ 126
        ∧ ¬ (hexC (m % 16)).toNat = 32 := by
      intro m
      have := hexC_range (m % 16) (Nat.mod_lt _ (show 0 < 16 by omega))
      exact ⟨by omega, by omega, by omega⟩
    rcases hu with rfl | rfl | rfl | rfl | rfl | rfl
    · exact ⟨by decide, by decide, by decide⟩
    · exact ⟨by decide, by decide, by decide⟩
    · exact hhex (n / 4096)
    · exact hhex (n / 256)
    · exact hhex (n / 16)
    · exact hhex n
  rw [escape] at hx
  by_cases h1 : c = '"'
  · simp only [if_pos h1] at hx
    rcases List.mem_cons.mp hx with rfl | hx2
    · exact ⟨by decide, by decide, fun hs => absurd hs (by decide)⟩
    · rcases List.mem_singleton.mp hx2 with rfl
      exact ⟨by decide, by decide, fun hs => absurd hs (by decide)⟩
  simp only [if_neg h1] at hx
  by_cases h2 : c = '\\'
  · simp only [if_pos h2] at hx
    rcases List.mem_cons.mp hx with rfl | hx2
    · exact ⟨by decide, by decide, fun hs => absurd hs (by decide)⟩
    · rcases List.mem_singleton.mp hx2 with rfl
      exact ⟨by decide, by decide, fun hs => absurd hs (by decide)⟩
  simp only [if_neg h2] at hx
  by_cases h3 : c = '\n'
  · simp only [if_pos h3] at hx
    rcases List.mem_cons.mp hx with rfl | hx2
    · exact ⟨by decide, by decide, fun hs => absurd hs (by decide)⟩
    · rcases List.mem_singleton.mp hx2 with rfl
      exact ⟨by decide, by decide, fun hs => absurd hs (by decide)⟩
  simp only [if_neg h3] at hx
  by_cases h4 : c = '\r'
  · simp only [if_pos h4] at hx
    rcases List.mem_cons.mp hx with rfl | hx2
    · exact ⟨by decide, by decide, fun hs => absurd hs (by decide)⟩
    · rcases List.mem_singleton.mp hx2 with rfl
      exact ⟨by decide, by decide, fun hs => absurd hs (by decide)⟩
  simp only [if_neg h4] at hx
  by_cases h5 : c = '\t'
  · simp only [if_pos h5] at hx
    rcases List.mem_cons.mp hx with rfl | hx2
    · exact ⟨by decide, by decide, fun hs => absurd hs (by decide)⟩
    · rcases List.mem_singleton.mp hx2 with rfl
      exact ⟨by decide, by decide, fun hs => absurd hs (by decide)⟩
  simp only [if_neg h5] at hx
  by_cases h6 : c.toNat = 8
  · simp only [if_pos h6] at hx
    rcases List.mem_cons.mp hx with rfl | hx2
    · exact ⟨by decide, by decide, fun hs => absurd hs (by decide)⟩
    · rcases List.mem_singleton.mp hx2 with rfl
      exact ⟨by decide, by decide, fun hs => absurd hs (by decide)⟩
  simp only [if_neg h6] at hx
  by_cases h7 : c.toNat = 12
  · simp only [if_pos h7] at hx
    rcases List.mem_cons.mp hx with rfl | hx2
    · exact ⟨by decide, by decide, fun hs => absurd hs (by decide)⟩
    · rcases List.mem_singleton.mp hx2 with rfl
      exact ⟨by decide, by decide, fun hs => absurd hs (by decide)⟩
  simp only [if_neg h7] at hx
  by_cases h8 : c.toNat < 32
  · simp only [if_pos h8] at hx
    obtain ⟨ha, hb, hc⟩ := huesc c.toNat (by omega) hx
    exact ⟨ha, hb, fun hs => absurd hs hc⟩
  simp only [if_neg h8] at hx
  by_cases h9 : c.toNat < 127
  · simp only [if_pos h9] at hx
    rcases List.mem_singleton.mp hx with rfl
    exact ⟨by omega, by omega, fun _ => rfl⟩
  simp only [if_neg h9] at hx
  by_cases h10 : c.toNat < 65536
  · simp only [if_pos h10] at hx
    obtain ⟨ha, hb, hc⟩ := huesc c.toNat (by omega) hx
    exact ⟨ha, hb, fun hs => absurd hs hc⟩
  · simp only [if_neg h10] at hx
    have hv := char_valid c
    rcases List.mem_append.mp hx with hu | hu
    · obtain ⟨ha, hb, hc⟩ := huesc _ (by omega) hu
      exact ⟨ha, hb, fun hs => absurd hs hc⟩
    · obtain ⟨ha, hb, hc⟩ := huesc _
        (by have := Nat.mod_lt (c.toNat - 65536) (show 0 < 1024 by omega); omega) hu
      exact ⟨ha, hb, fun hs => absurd hs hc⟩

/-- Everything in an encoded string literal is printable ASCII, and a
space appears only when the source string holds a space. -/
theorem encStr_char_facts (s : String) (x : Char) (hx : x ∈ encStr s) :
    32 ≤ x.toNat ∧ x.toNat ≤ 126 ∧ (x.toNat = 32 → strNoSpace s = false) := by
  rw [encStr] at hx
  rcases List.mem_cons.mp hx with rfl | hx2
  · exact ⟨by decide, by decide, fun hs => absurd hs (by decide)⟩
  rcases List.mem_append.mp hx2 with hb | he
  · obtain ⟨c, hcl, hxc⟩ := escBody_mem s.data x hb
    obtain ⟨ha, hbb, hcc⟩ := escape_char_facts c x hxc
    refine ⟨ha, hbb, fun hs => ?_⟩
    have hcsp : c = ' ' := by
      rw [hcc hs, ← Char.ofNat_toNat x, hs]
    rw [strNoSpace]
    refine List.all_eq_false.mpr ⟨c, hcl, ?_⟩
    rw [hcsp]
    decide
  · rcases List.mem_singleton.mp he with rfl
    exact ⟨by decide, by decide, fun hs => absurd hs (by decide)⟩

mutual

/-- Every byte of an emitted value is printable ASCII, and a space byte
appears only when some string in the value holds a space. -/
theorem emit_char_facts : ∀ (j : Json) (x : Char), x ∈ emit j →
    32 ≤ x.toNat ∧ x.toNat ≤ 126 ∧ (x.toNat = 32 → jsonNoSpace j = false)
  | .null, x, hx => by
    rcases hx with _ | ⟨_, _ | ⟨_, _ | ⟨_, _ | ⟨_, h⟩⟩⟩⟩ <;> first
      | exact ⟨by decide, by decide, fun hs => absurd hs (by decide)⟩
      | cases h
  | .bool true, x, hx => by
    rcases hx with _ | ⟨_, _ | ⟨_, _ | ⟨_, _ | ⟨_, h⟩⟩⟩⟩ <;> first
      | exact ⟨by decide, by decide, fun hs => absurd hs (by decide)⟩
      | cases h
  | .bool false, x, hx => by
    rcases hx with _ | ⟨_, _ | ⟨_, _ | ⟨_, _ | ⟨_, _ | ⟨_, h⟩⟩⟩⟩⟩ <;> first
      | exact ⟨by decide, by decide, fun hs => absurd hs (by decide)⟩
      | cases h
  | .num n, x, hx => by
    have hdig : ∀ m, x ∈ natChars m → 32 ≤ x.toNat ∧ x.toNat ≤ 126 ∧ ¬ x.toNat = 32 := by
      intro m hm
      have := natChars_digits m x hm
      simp only [isDigitC, Bool.and_eq_true, decide_eq_true_eq] at this
      exact ⟨by omega, by omega, by omega⟩
    show 32 ≤ x.toNat ∧ x.toNat ≤ 126 ∧ (x.toNat = 32 → jsonNoSpace (Json.num n) = false)
    have hx2 : x ∈ intChars n := hx
    rw [intChars] at hx2
    by_cases hn : n < 0
    · simp only [if_pos hn] at hx2
      rcases List.mem_cons.mp hx2 with rfl | hm
      · exact ⟨by decide, by decide, fun hs => absurd hs (by decide)⟩
      · obtain ⟨ha, hb, hc⟩ := hdig _ hm
        exact ⟨ha, hb, fun hs => absurd hs hc⟩
    · simp only [if_neg hn] at hx2
      obtain ⟨ha, hb, hc⟩ := hdig _ hx2
      exact ⟨ha, hb, fun hs => absurd hs hc⟩
  | .str s, x, hx => by
    obtain ⟨ha, hb, hc⟩ := encStr_char_facts s x hx
    exact ⟨ha, hb, hc⟩
  | .arr es, x, hx => by
    have hx2 : x ∈ '[' :: emitItems es ++ [']'] := hx
    rcases List.mem_cons.mp hx2 with rfl | hx3
    · exact ⟨by decide, by decide, fun hs => absurd hs (by decide)⟩
    rcases List.mem_append.mp hx3 with hi | he
    · obtain ⟨ha, hb, hc⟩ := emitItems_char_facts es x hi
      exact ⟨ha, hb, hc⟩
    · rcases List.mem_singleton.mp he with rfl
      exact ⟨by decide, by decide, fun hs => absurd hs (by decide)⟩
  | .obj ms, x, hx => by
    have hx2 : x ∈ lcb :: emitPairs ms ++ [rcb] := hx
    rcases List.mem_cons.mp hx2 with rfl | hx3
    · exact ⟨by decide, by decide, fun hs => absurd hs (by decide)⟩
    rcases List.mem_append.mp hx3 with hi | he
    · obtain ⟨ha, hb, hc⟩ := emitPairs_char_facts ms x hi
      exact ⟨ha, hb, hc⟩
    · rcases List.mem_singleton.mp he with rfl
      exact ⟨by decide, by decide, fun hs => absurd hs (by decide)⟩
  termination_by j _ _ => sizeOf j

/-- `emit_char_facts` for element lists. -/
theorem emitItems_char_facts : ∀ (es : List Json) (x : Char), x ∈ emitItems es →
    32 ≤ x.toNat ∧ x.toNat ≤ 126 ∧ (x.toNat = 32 → listNoSpace es = false)
  | [], x, hx => by cases hx
  | [e], x, hx => by
    have hx2 : x ∈ emit e := hx
    obtain ⟨ha, hb, hc⟩ := emit_char_facts e x hx2
    refine ⟨ha, hb, fun hs => ?_⟩
    show (jsonNoSpace e && listNoSpace []) = false
    simp [hc hs]
  | e :: e2 :: es, x, hx => by
    have hx2 : x ∈ emit e ++ ',' :: emitItems (e2 :: es) := hx
    rcases List.mem_append.mp hx2 with he | hr
    · obtain ⟨ha, hb, hc⟩ := emit_char_facts e x he
      refine ⟨ha, hb, fun hs => ?_⟩
      show (jsonNoSpace e && listNoSpace (e2 :: es)) = false
      simp [hc hs]
    rcases List.mem_cons.mp hr with rfl | hi
    · exact ⟨by decide, by decide, fun hs => absurd hs (by decide)⟩
    · obtain ⟨ha, hb, hc⟩ := emitItems_char_facts (e2 :: es) x hi
      refine ⟨ha, hb, fun hs => ?_⟩
      show (jsonNoSpace e && listNoSpace (e2 :: es)) = false
      simp [hc hs]
  termination_by es _ _ => sizeOf es

/-- `emit_char_facts` for member lists. -/
theorem emitPairs_char_facts : ∀ (ms : List (String × Json)) (x : Char), x ∈ emitPairs ms →
    32 ≤ x.toNat ∧ x.toNat ≤ 126 ∧ (x.toNat = 32 → pairsNoSpace ms = false)
  | [], x, hx => by cases hx
  | [(k, v)], x, hx => by
    have hx2 : x ∈ encStr k ++ ':' :: emit v := hx
    rcases List.mem_append.mp hx2 with hk | hr
    · obtain ⟨ha, hb, hc⟩ := encStr_char_facts k x hk
      refine ⟨ha, hb, fun hs => ?_⟩
      show (strNoSpace k && jsonNoSpace v && pairsNoSpace []) = false
      simp [hc hs]
    rcases List.mem_cons.mp hr with rfl | hv
    · exact ⟨by decide, by decide, fun hs => absurd hs (by decide)⟩
    · obtain ⟨ha, hb, hc⟩ := emit_char_facts v x hv
      refine ⟨ha, hb, fun hs => ?_⟩
      show (strNoSpace k && jsonNoSpace v && pairsNoSpace []) = false
      simp [hc hs]
  | (k, v) :: p :: ms, x, hx => by
    have hx2 : x ∈ (encStr k ++ ':' :: emit v) ++ ',' :: emitPairs (p :: ms) := hx
    rcases List.mem_append.mp hx2 with hkv | hr2
    · rcases List.mem_append.mp hkv with hk | hr
      · obtain ⟨ha, hb, hc⟩ := encStr_char_facts k x hk
        refine ⟨ha, hb, fun hs => ?_⟩
        show (strNoSpace k && jsonNoSpace v && pairsNoSpace (p :: ms)) = false
        simp [hc hs]
      rcases List.mem_cons.mp hr with rfl | hv
      · exact ⟨by decide, by decide, fun hs => absurd hs (by decide)⟩
      · obtain ⟨ha, hb, hc⟩ := emit_char_facts v x hv
        refine ⟨ha, hb, fun hs => ?_⟩
        show (strNoSpace k && jsonNoSpace v && pairsNoSpace (p :: ms)) = false
        simp [hc hs]
    rcases List.mem_cons.mp hr2 with rfl | hi
    · exact ⟨by decide, by decide, fun hs => absurd hs (by decide)⟩
    · obtain ⟨ha, hb, hc⟩ := emitPairs_char_facts (p :: ms) x hi
      refine ⟨ha, hb, fun hs => ?_⟩
      show (strNoSpace k && jsonNoSpace v && pairsNoSpace (p :: ms)) = false
      simp [hc hs]
  termination_by ms _ _ => sizeOf ms

end

/-! ## Lemmas: the Python-value boundary and the builder -/

mutual

/-- A `Json` tree seen as a Python value is JSON-encodable, and encodes
back to itself. -/
theorem pyToJson_jsonToPy : ∀ j : Json, pyToJson (jsonToPy j) = .ok j
  | .null => rfl
  | .bool b => rfl
  | .num n => rfl
  | .str s => rfl
  | .arr es => by
    show (pyToJsonList (jsonToPyList es)).bind _ = _
    rw [pyToJsonList_jsonToPyList es]
    rfl
  | .obj ms => by
    show (pyToJsonPairs (jsonToPyPairs ms)).bind _ = _
    rw [pyToJsonPairs_jsonToPyPairs ms]
    rfl
  termination_by j => sizeOf j

/-- Elementwise version of `pyToJson_jsonToPy`. -/
theorem pyToJsonList_jsonToPyList : ∀ es : List Json,
    pyToJsonList (jsonToPyList es) = .ok es
  | [] => rfl
  | e :: es => by
    show (pyToJson (jsonToPy e)).bind _ = _
    rw [pyToJson_jsonToPy e]
    show (pyToJsonList (jsonToPyList es)).bind _ = _
    rw [pyToJsonList_jsonToPyList es]
    rfl
  termination_by es => sizeOf es

/-- Entrywise version of `pyToJson_jsonToPy`. -/
theorem pyToJsonPairs_jsonToPyPairs : ∀ ms : List (String × Json),
    pyToJsonPairs (jsonToPyPairs ms) = .ok ms
  | [] => rfl
  | (k, v) :: ms => by
    show (pyToJson (jsonToPy v)).bind _ = _
    rw [pyToJson_jsonToPy v]
    show (pyToJsonPairs (jsonToPyPairs ms)).bind _ = _
    rw [pyToJsonPairs_jsonToPyPairs ms]
    rfl
  termination_by ms => sizeOf ms

end

/-- The license the builder produces, in closed form: the fixed
identity fields, the two injected dates in their three places, and the
eleven add-ons of the catalog in order. -/
theorem generate_license_eq (tp : TimeProvider) :
    LicenseGenerator.generate_license tp =
      { payload :=
        { licenses :=
          [{ start_date := tp.current_time, end_date := tp.future_time 10,
             issued_on := tp.current_time,
             add_ons :=
               [{ id := "48-1337-DEAD-0", code := "HEXX86", owner := "48-2437-ACBD-29",
                  start_date := tp.current_time, end_date := tp.future_time 10 },
                { id := "48-1337-DEAD-1", code := "HEXX64", owner := "48-2437-ACBD-29",
                  start_date := tp.current_time, end_date := tp.future_time 10 },
                { id := "48-1337-DEAD-2", code := "HEXARM", owner := "48-2437-ACBD-29",
                  start_date := tp.current_time, end_date := tp.future_time 10 },
                { id := "48-1337-DEAD-3", code := "HEXARM64", owner := "48-2437-ACBD-29",
                  start_date := tp.current_time, end_date := tp.future_time 10 },
                { id := "48-1337-DEAD-4", code := "HEXMIPS", owner := "48-2437-ACBD-29",
                  start_date := tp.current_time, end_date := tp.future_time 10 },
                { id := "48-1337-DEAD-5", code := "HEXMIPS64", owner := "48-2437-ACBD-29",
                  start_date := tp.current_time, end_date := tp.future_time 10 },
                { id := "48-1337-DEAD-6", code := "HEXPPC", owner := "48-2437-ACBD-29",
                  start_date := tp.current_time, end_date := tp.future_time 10 },
                { id := "48-1337-DEAD-7", code := "HEXPPC64", owner := "48-2437-ACBD-29",
                  start_date := tp.current_time, end_date := tp.future_time 10 },
                { id := "48-1337-DEAD-8", code := "HEXRV64", owner := "48-2437-ACBD-29",
                  start_date := tp.current_time, end_date := tp.future_time 10 },
                { id := "48-1337-DEAD-9", code := "HEXARC", owner := "48-2437-ACBD-29",
                  start_date := tp.current_time, end_date := tp.future_time 10 },
                { id := "48-1337-DEAD-10", code := "HEXARC64", owner := "48-2437-ACBD-29",
                  start_date := tp.current_time, end_date := tp.future_time 10 }] }] } } := by
  rfl

/-! ## Lemmas: the civil-date fields stay in range, so `strftime` output
keeps its fixed shape -/

theorem rangeAll_sound (f : Nat → Bool) : ∀ fuel lo w, rangeAll f fuel lo w = true →
    ∀ i, lo ≤ i → i < lo + w → f i = true := by
  intro fuel
  induction fuel with
  | zero =>
    intro lo w h i h1 h2
    rw [rangeAll] at h
    rw [Nat.beq_eq_true_eq] at h
    omega
  | succ fl ih =>
    intro lo w h i h1 h2
    rw [rangeAll] at h
    by_cases h0 : w = 0
    · omega
    rw [if_neg h0] at h
    by_cases h1w : w = 1
    · rw [if_pos h1w] at h
      have : i = lo := by omega
      subst this
      exact h
    rw [if_neg h1w] at h
    rw [Bool.and_eq_true] at h
    rcases h with ⟨ha, hb⟩
    by_cases hi : i < lo + w / 2
    · exact ih lo (w / 2) ha i h1 hi
    · exact ih (lo + w / 2) (w - w / 2) hb i (by omega) (by omega)

set_option maxHeartbeats 10000000 in
theorem doySweep0 : rangeAll doyOk 40 0 18263 = true := by rfl

set_option maxHeartbeats 10000000 in
theorem doySweep1 : rangeAll doyOk 40 18263 18263 = true := by rfl

set_option maxHeartbeats 10000000 in
theorem doySweep2 : rangeAll doyOk 40 36526 18263 = true := by rfl

set_option maxHeartbeats 10000000 in
theorem doySweep3 : rangeAll doyOk 40 54789 18263 = true := by rfl

set_option maxHeartbeats 10000000 in
theorem doySweep4 : rangeAll doyOk 40 73052 18263 = true := by rfl

set_option maxHeartbeats 10000000 in
theorem doySweep5 : rangeAll doyOk 40 91315 18263 = true := by rfl

set_option maxHeartbeats 10000000 in
theorem doySweep6 : rangeAll doyOk 40 109578 18263 = true := by rfl

set_option maxHeartbeats 10000000 in
theorem doySweep7 : rangeAll doyOk 40 127841 18256 = true := by rfl

/-- The day of year computed by `civilFromDays` never exceeds 365. -/
theorem doy_le (D : Nat) (h : D ≤ 146096) :
    D - (365 * ((D - D / 1460 + D / 36524 - D / 146096) / 365)
      + ((D - D / 1460 + D / 36524 - D / 146096) / 365) / 4
      - ((D - D / 1460 + D / 36524 - D / 146096) / 365) / 100) ≤ 365 := by
  have h2 : doyOk D = true := by
    by_cases hc0 : D < 18263
    · exact rangeAll_sound doyOk 40 0 18263 doySweep0 D (by omega) (by omega)
    by_cases hc1 : D < 36526
    · exact rangeAll_sound doyOk 40 18263 18263 doySweep1 D (by omega) (by omega)
    by_cases hc2 : D < 54789
    · exact rangeAll_sound doyOk 40 36526 18263 doySweep2 D (by omega) (by omega)
    by_cases hc3 : D < 73052
    · exact rangeAll_sound doyOk 40 54789 18263 doySweep3 D (by omega) (by omega)
    by_cases hc4 : D < 91315
    · exact rangeAll_sound doyOk 40 73052 18263 doySweep4 D (by omega) (by omega)
    by_cases hc5 : D < 109578
    · exact rangeAll_sound doyOk 40 91315 18263 doySweep5 D (by omega) (by omega)
    by_cases hc6 : D < 127841
    · exact rangeAll_sound doyOk 40 109578 18263 doySweep6 D (by omega) (by omega)
    exact rangeAll_sound doyOk 40 127841 18256 doySweep7 D (by omega) (by omega)
  rw [doyOk, decide_eq_true_eq] at h2
  exact h2

/-- For every day count up to 9999-12-31, the civil month is in 1..12,
the day in 1..31, and the year at most 9999. -/
theorem civilFromDays_bounds (z : Nat) (hz : z ≤ 2932896) :
    1 ≤ (civilFromDays z).2.1 ∧ (civilFromDays z).2.1 ≤ 12 ∧
    1 ≤ (civilFromDays z).2.2 ∧ (civilFromDays z).2.2 ≤ 31 ∧
    (civilFromDays z).1 ≤ 9999 := by
  have hdoy := doy_le ((z + 719468) % 146097) (by omega)
  unfold civilFromDays
  dsimp only
  split_ifs <;> refine ⟨?_, ?_, ?_, ?_, ?_⟩ <;> omega

theorem natChars_two (n : Nat) (h1 : 10 ≤ n) (h2 : n < 100) :
    natChars n = [digitC (n / 10), digitC (n % 10)] := by
  rw [natChars_eq, if_neg (by omega), natChars_eq, if_pos (by omega)]
  rfl

theorem natChars_three (n : Nat) (h1 : 100 ≤ n) (h2 : n < 1000) :
    natChars n = [digitC (n / 10 / 10), digitC (n / 10 % 10), digitC (n % 10)] := by
  rw [natChars_eq, if_neg (by omega), natChars_two (n / 10) (by omega) (by omega)]
  rfl

theorem natChars_four (n : Nat) (h1 : 1000 ≤ n) (h2 : n < 10000) :
    natChars n = [digitC (n / 10 / 10 / 10), digitC (n / 10 / 10 % 10),
      digitC (n / 10 % 10), digitC (n % 10)] := by
  rw [natChars_eq, if_neg (by omega), natChars_three (n / 10) (by omega) (by omega)]
  rfl

/-- A two-digit zero-padded field is two decimal digit characters. -/
theorem pad2_shape (n : Nat) (h : n < 100) :
    ∃ a b, (pad2 n).data = [a, b] ∧ isDigitC a = true ∧ isDigitC b = true := by
  rw [pad2]
  by_cases h10 : n < 10
  · refine ⟨'0', digitC n, ?_, by decide, isDigitC_digitC n h10⟩
    rw [if_pos h10, String.data_append]
    show '0' :: (natChars n) = _
    rw [natChars_eq, if_pos h10]
  · refine ⟨digitC (n / 10), digitC (n % 10), ?_, isDigitC_digitC _ (by omega),
      isDigitC_digitC _ (by omega)⟩
    rw [if_neg h10]
    show natChars n = _
    rw [natChars_two n (by omega) h]

/-- A four-digit zero-padded field is four decimal digit characters. -/
theorem pad4_shape (n : Nat) (h : n < 10000) :
    ∃ a b c d, (pad4 n).data = [a, b, c, d] ∧ isDigitC a = true ∧ isDigitC b = true ∧
      isDigitC c = true ∧ isDigitC d = true := by
  rw [pad4]
  by_cases h10 : n < 10
  · refine ⟨'0', '0', '0', digitC n, ?_, by decide, by decide, by decide,
      isDigitC_digitC n h10⟩
    rw [if_pos h10, String.data_append]
    show '0' :: '0' :: '0' :: (natChars n) = _
    rw [natChars_eq, if_pos h10]
  rw [if_neg h10]
  by_cases h100 : n < 100
  · refine ⟨'0', '0', digitC (n / 10), digitC (n % 10), ?_, by decide, by decide,
      isDigitC_digitC _ (by omega), isDigitC_digitC _ (by omega)⟩
    rw [if_pos h100, String.data_append]
    show '0' :: '0' :: (natChars n) = _
    rw [natChars_two n (by omega) h100]
  rw [if_neg h100]
  by_cases h1000 : n < 1000
  · refine ⟨'0', digitC (n / 10 / 10), digitC (n / 10 % 10), digitC (n % 10), ?_,
      by decide, isDigitC_digitC _ (by omega), isDigitC_digitC _ (by omega),
      isDigitC_digitC _ (by omega)⟩
    rw [if_pos h1000, String.data_append]
    show '0' :: (natChars n) = _
    rw [natChars_three n (by omega) h1000]
  · refine ⟨digitC (n / 10 / 10 / 10), digitC (n / 10 / 10 % 10), digitC (n / 10 % 10),
      digitC (n % 10), ?_, isDigitC_digitC _ (by omega), isDigitC_digitC _ (by omega),
      isDigitC_digitC _ (by omega), isDigitC_digitC _ (by omega)⟩
    rw [if_neg h1000]
    show natChars n = _
    rw [natChars_four n (by omega) (by omega)]

/-- A string equals the pack of its byte list. -/
theorem eq_mk_of_data (s : String) (l : List Char) (h : s.data = l) : s = String.mk l := by
  cases s
  cases h
  rfl

/-- Every clock value below 10000-01-01 renders in the exact
`YYYY-MM-DD HH:MM:SS` shape. -/
theorem fmtDT_format (t : Nat) (h : t < 253402300800) : isDTFormat (fmtDT t) = true := by
  obtain ⟨hm1, hm2, hd1, hd2, hy⟩ := civilFromDays_bounds (t / 86400) (by omega)
  obtain ⟨a1, a2, a3, a4, hya, hda1, hda2, hda3, hda4⟩ :=
    pad4_shape (civilFromDays (t / 86400)).1 (by omega)
  obtain ⟨b1, b2, hmo, hdb1, hdb2⟩ := pad2_shape (civilFromDays (t / 86400)).2.1 (by omega)
  obtain ⟨c1, c2, hdd, hdc1, hdc2⟩ := pad2_shape (civilFromDays (t / 86400)).2.2 (by omega)
  obtain ⟨e1, e2, hhh, hde1, hde2⟩ := pad2_shape (t % 86400 / 3600) (by omega)
  obtain ⟨f1, f2, hmi, hdf1, hdf2⟩ := pad2_shape (t % 86400 % 3600 / 60) (by omega)
  obtain ⟨g1, g2, hss, hdg1, hdg2⟩ := pad2_shape (t % 86400 % 60) (by omega)
  have hdata : (fmtDT t).data
      = [a1, a2, a3, a4, '-', b1, b2, '-', c1, c2, ' ', e1, e2, ':', f1, f2, ':', g1, g2] := by
    show (pad4 (civilFromDays (t / 86400)).1 ++ "-" ++ pad2 (civilFromDays (t / 86400)).2.1
        ++ "-" ++ pad2 (civilFromDays (t / 86400)).2.2 ++ " " ++ pad2 (t % 86400 / 3600)
        ++ ":" ++ pad2 (t % 86400 % 3600 / 60) ++ ":" ++ pad2 (t % 86400 % 60)).data = _
    rw [String.data_append, String.data_append, String.data_append, String.data_append,
      String.data_append, String.data_append, String.data_append, String.data_append,
      String.data_append, String.data_append]
    rw [hya, hmo, hdd, hhh, hmi, hss]
    rfl
  rw [eq_mk_of_data (fmtDT t) _ hdata, isDTFormat]
  simp [hda1, hda2, hda3, hda4, hdb1, hdb2, hdc1, hdc2, hde1, hde2, hdf1, hdf2, hdg1, hdg2]

/-! ## The claims -/

/-- C1: for every `TimeProvider`, the built license's identification has
`start_date` and `issued_on` equal to `current_time()` and `end_date`
equal to `future_time(10)`, and every add-on mirrors the same pair; in
particular, for a provider returning 2024-01-01 00:00:00 and (for ten
years) 2034-01-01 00:00:00, those exact strings appear. -/
theorem C1_dates (tp : TimeProvider) :
    ((LicenseGenerator.generate_license tp).ident.start_date = tp.current_time ∧
     (LicenseGenerator.generate_license tp).ident.issued_on = tp.current_time ∧
     (LicenseGenerator.generate_license tp).ident.end_date = tp.future_time 10 ∧
     (∀ a ∈ (LicenseGenerator.generate_license tp).ident.add_ons,
        a.start_date = tp.current_time ∧ a.end_date = tp.future_time 10)) ∧
    (tp.current_time = "2024-01-01 00:00:00" → tp.future_time 10 = "2034-01-01 00:00:00" →
      (LicenseGenerator.generate_license tp).ident.start_date = "2024-01-01 00:00:00" ∧
      (LicenseGenerator.generate_license tp).ident.issued_on = "2024-01-01 00:00:00" ∧
      (LicenseGenerator.generate_license tp).ident.end_date = "2034-01-01 00:00:00") := by
  rw [generate_license_eq]
  refine ⟨⟨rfl, rfl, rfl, ?_⟩, ?_⟩
  · intro a ha
    simp only [License.ident, List.headD_cons, List.mem_cons, List.not_mem_nil,
      or_false] at ha
    rcases ha with rfl | rfl | rfl | rfl | rfl | rfl | rfl | rfl | rfl | rfl | rfl <;>
      exact ⟨rfl, rfl⟩
  · intro h1 h2
    rw [License.ident]
    simp only [List.headD_cons]
    exact ⟨h1, h1, h2⟩

theorem C1_dates_witness :
    (LicenseGenerator.generate_license fixedProvider).ident.start_date
        = "2024-01-01 00:00:00" ∧
    (LicenseGenerator.generate_license fixedProvider).ident.issued_on
        = "2024-01-01 00:00:00" ∧
    (LicenseGenerator.generate_license fixedProvider).ident.end_date
        = "2034-01-01 00:00:00" :=
  (C1_dates fixedProvider).2 rfl rfl

/-- C2: for every `TimeProvider`, the built identification carries
exactly the eleven catalog codes in order, with ids
`48-1337-DEAD-0` through `48-1337-DEAD-10`. -/
theorem C2_addon_catalog (tp : TimeProvider) :
    (LicenseGenerator.generate_license tp).ident.add_ons.length = 11 ∧
    (LicenseGenerator.generate_license tp).ident.add_ons.map (fun a => a.code)
      = ["HEXX86", "HEXX64", "HEXARM", "HEXARM64", "HEXMIPS", "HEXMIPS64", "HEXPPC",
         "HEXPPC64", "HEXRV64", "HEXARC", "HEXARC64"] ∧
    (LicenseGenerator.generate_license tp).ident.add_ons.map (fun a => a.id)
      = ["48-1337-DEAD-0", "48-1337-DEAD-1", "48-1337-DEAD-2", "48-1337-DEAD-3",
         "48-1337-DEAD-4", "48-1337-DEAD-5", "48-1337-DEAD-6", "48-1337-DEAD-7",
         "48-1337-DEAD-8", "48-1337-DEAD-9", "48-1337-DEAD-10"] := by
  rw [generate_license_eq]
  exact ⟨rfl, rfl, rfl⟩

/-- C3: for every `TimeProvider` and every index into the built
identification's add-on list, that add-on's owner is the
identification's id and its dates are the identification's dates; and
`issued_on` equals `start_date`. -/
theorem C3_addon_invariants (tp : TimeProvider) (i : Nat)
    (h : i < (LicenseGenerator.generate_license tp).ident.add_ons.length) :
    ((LicenseGenerator.generate_license tp).ident.add_ons.get ⟨i, h⟩).owner
        = (LicenseGenerator.generate_license tp).ident.id ∧
    ((LicenseGenerator.generate_license tp).ident.add_ons.get ⟨i, h⟩).start_date
        = (LicenseGenerator.generate_license tp).ident.start_date ∧
    ((LicenseGenerator.generate_license tp).ident.add_ons.get ⟨i, h⟩).end_date
        = (LicenseGenerator.generate_license tp).ident.end_date ∧
    (LicenseGenerator.generate_license tp).ident.issued_on
        = (LicenseGenerator.generate_license tp).ident.start_date := by
  have h11 : i < 11 := by
    have := h
    rw [generate_license_eq] at this
    simpa [License.ident] using this
  revert h
  rw [generate_license_eq]
  intro h
  interval_cases i <;> exact ⟨rfl, rfl, rfl, rfl⟩

set_option maxRecDepth 100000 in
theorem C3_addon_invariants_witness :
    (0 < (LicenseGenerator.generate_license fixedProvider).ident.add_ons.length) ∧
    (∀ h : 0 < (LicenseGenerator.generate_license fixedProvider).ident.add_ons.length,
      ((LicenseGenerator.generate_license fixedProvider).ident.add_ons.get ⟨0, h⟩).owner
        = (LicenseGenerator.generate_license fixedProvider).ident.id) :=
  ⟨by decide, fun h => (C3_addon_invariants fixedProvider 0 h).1⟩

/-- C4: the serializer emits each entity's keys in the declared schema
order, every output byte is printable ASCII (so there is no newline and
no trailing newline), whitespace can only be a space coming from a space
inside one of the value's own strings, and serialization is total by
construction. -/
theorem C4_serializer_canonical (lic : License) (p : LicensePayload) (lid : LicenseId)
    (a : AddonPlugin) :
    objKeys (License.to_dict lic) = ["header", "payload", "signature"] ∧
    objKeys (LicensePayload.to_dict p) = ["name", "email", "licenses"] ∧
    objKeys (LicenseId.to_dict lid)
      = ["id", "license_type", "product", "product_id", "edition_id", "seats",
         "start_date", "end_date", "issued_on", "owner", "add_ons", "features"] ∧
    objKeys (AddonPlugin.to_dict a) = ["id", "code", "owner", "start_date", "end_date"] ∧
    (∀ c ∈ (serializeLicense lic).data, 32 ≤ c.toNat ∧ c.toNat ≤ 126) ∧
    Char.ofNat 10 ∉ (serializeLicense lic).data ∧
    (jsonNoSpace (License.to_dict lic) = true →
      ∀ c ∈ (serializeLicense lic).data, ¬ c = ' ') := by
  refine ⟨rfl, rfl, rfl, rfl, ?_, ?_, ?_⟩
  · intro c hc
    have hm : c ∈ emit (License.to_dict lic) := hc
    obtain ⟨h1, h2, _⟩ := emit_char_facts (License.to_dict lic) c hm
    exact ⟨h1, h2⟩
  · intro hc
    have hm : Char.ofNat 10 ∈ emit (License.to_dict lic) := hc
    obtain ⟨h1, _, _⟩ := emit_char_facts (License.to_dict lic) _ hm
    simp at h1
  · intro hns c hc hsp
    have hm : c ∈ emit (License.to_dict lic) := hc
    obtain ⟨_, _, h3⟩ := emit_char_facts (License.to_dict lic) c hm
    rw [hsp] at h3
    rw [h3 (by decide)] at hns
    cases hns

set_option maxRecDepth 100000 in
theorem C4_serializer_canonical_witness :
    objKeys (License.to_dict {}) = ["header", "payload", "signature"] ∧
    (∀ c ∈ (serializeLicense {}).data, ¬ c = ' ') :=
  ⟨(C4_serializer_canonical {} {} {} ⟨"", "", "", "", ""⟩).1,
   (C4_serializer_canonical {} {} {} ⟨"", "", "", "", ""⟩).2.2.2.2.2.2 (by decide)⟩

/-- C5: when opening `idapro.hexlic` fails, `write_json` returns `False`
after printing one stderr diagnostic containing the destination name and
the underlying error text, and `main` returns exit code 1 with nothing on
stdout; when the destination is writable, `write_json` returns `True`
having written the serialized license, and `main` returns exit code 0
after printing the success message. -/
theorem C5_write_outcomes (now : Nat) (e : String) :
    (FileWriter.write_json (some e)
        (jsonToPy (LicenseGenerator.generate_license (DefaultTimeProvider.provider now)).to_dict)
        "idapro.hexlic").returned = .ok false ∧
    (FileWriter.write_json (some e)
        (jsonToPy (LicenseGenerator.generate_license (DefaultTimeProvider.provider now)).to_dict)
        "idapro.hexlic").stderrLines
      = ["Failed to open file :( -> idapro.hexlic\n" ++ e] ∧
    List.IsInfix "idapro.hexlic".data
      ("Failed to open file :( -> idapro.hexlic\n" ++ e).data ∧
    List.IsInfix e.data ("Failed to open file :( -> idapro.hexlic\n" ++ e).data ∧
    (main now (some e)).returned = .ok 1 ∧
    (main now (some e)).stdoutLines = [] ∧
    (FileWriter.write_json none
        (jsonToPy (LicenseGenerator.generate_license (DefaultTimeProvider.provider now)).to_dict)
        "idapro.hexlic").returned = .ok true ∧
    (FileWriter.write_json none
        (jsonToPy (LicenseGenerator.generate_license (DefaultTimeProvider.provider now)).to_dict)
        "idapro.hexlic").fileContent
      = some (serializeLicense (LicenseGenerator.generate_license (DefaultTimeProvider.provider now))) ∧
    (main now none).returned = .ok 0 ∧
    (main now none).stdoutLines = ["License file generated: idapro.hexlic :D"] := by
  have hmsg : (("Failed to open file :( -> " ++ "idapro.hexlic") ++ "\n" : String)
      = "Failed to open file :( -> idapro.hexlic\n" := by decide
  have hsplit : ("Failed to open file :( -> idapro.hexlic\n" : String).data
      = "Failed to open file :( -> ".data ++ "idapro.hexlic".data ++ "\n".data := by decide
  have hwr : FileWriter.write_json none
      (jsonToPy (LicenseGenerator.generate_license (DefaultTimeProvider.provider now)).to_dict)
      "idapro.hexlic"
      = { returned := .ok true, fileOpened := true,
          fileContent :=
            some (dumps (LicenseGenerator.generate_license (DefaultTimeProvider.provider now)).to_dict),
          stderrLines := [] } := by
    rw [FileWriter.write_json, pyToJson_jsonToPy]
  refine ⟨rfl, ?_, ?_, ?_, rfl, rfl, ?_, ?_, ?_, ?_⟩
  · show [(("Failed to open file :( -> " ++ "idapro.hexlic") ++ "\n") ++ e] = _
    rw [hmsg]
  · exact ⟨"Failed to open file :( -> ".data, "\n".data ++ e.data,
      by rw [String.data_append, hsplit]; simp [List.append_assoc]⟩
  · exact ⟨"Failed to open file :( -> idapro.hexlic\n".data, [],
      by rw [String.data_append]; simp⟩
  · rw [hwr]
  · rw [hwr]
    rfl
  · simp only [main]
    rw [hwr]
  · simp only [main]
    rw [hwr]

/-- C6: serialization is a pure function of the `License` value — two
runs on the same value produce byte-identical output. -/
theorem C6_serialize_deterministic (l1 l2 : License) (h : l1 = l2) :
    serializeLicense l1 = serializeLicense l2 ∧
    (serializeLicense l1).data = (serializeLicense l2).data := by
  subst h
  exact ⟨rfl, rfl⟩

theorem C6_serialize_deterministic_witness :
    serializeLicense {} = serializeLicense {} ∧
    (serializeLicense {}).data = (serializeLicense {}).data :=
  C6_serialize_deterministic {} {} rfl

/-- C7: `future_time(years)` is the clock reading exactly
`years * 365` days (in seconds, `years * 365 * 86400`) after the moment
`current_time()` reads in the same invocation context, rendered by the
same `strftime` formatter; within `datetime`'s representable years the
result has the exact `YYYY-MM-DD HH:MM:SS` shape. -/
theorem C7_future_time (now years : Nat) :
    DefaultTimeProvider.future_time now years
        = DefaultTimeProvider.current_time (now + years * 365 * 86400) ∧
    DefaultTimeProvider.future_time now years = fmtDT (now + years * 365 * 86400) ∧
    (now + years * 365 * 86400 < 253402300800 →
      isDTFormat (DefaultTimeProvider.future_time now years) = true) := by
  have harg : now + 365 * years * 86400 = now + years * 365 * 86400 := by ring
  refine ⟨?_, ?_, ?_⟩
  · rw [DefaultTimeProvider.future_time, DefaultTimeProvider.current_time, harg]
  · rw [DefaultTimeProvider.future_time, harg]
  · intro hb
    rw [DefaultTimeProvider.future_time, harg]
    exact fmtDT_format _ hb

theorem C7_future_time_witness :
    DefaultTimeProvider.future_time 1704067200 10
        = DefaultTimeProvider.current_time (1704067200 + 10 * 365 * 86400) ∧
    isDTFormat (DefaultTimeProvider.future_time 1704067200 10) = true :=
  ⟨(C7_future_time 1704067200 10).1,
   (C7_future_time 1704067200 10).2.2 (by decide)⟩

/-- C8: decoding the serialized output of any built license and
re-encoding it with the same field order reproduces the original bytes
exactly. -/
theorem C8_roundtrip (tp : TimeProvider) :
    reencode (serializeLicense (LicenseGenerator.generate_license tp))
      = some (serializeLicense (LicenseGenerator.generate_license tp)) :=
  reencode_dumps (LicenseGenerator.generate_license tp).to_dict

set_option maxRecDepth 100000 in
/-- C9: the built license carries the fixed identity constants, payload
name and email, a single license entry, empty features, the version-1
header, and the fixed 256-character signature token. -/
theorem C9_constants (tp : TimeProvider) :
    (LicenseGenerator.generate_license tp).ident.id = "48-2437-ACBD-29" ∧
    (LicenseGenerator.generate_license tp).ident.license_type = "named" ∧
    (LicenseGenerator.generate_license tp).ident.product = "IDA" ∧
    (LicenseGenerator.generate_license tp).ident.product_id = "IDAPRO" ∧
    (LicenseGenerator.generate_license tp).ident.edition_id = "ida-pro" ∧
    (LicenseGenerator.generate_license tp).ident.seats = 1 ∧
    (LicenseGenerator.generate_license tp).ident.owner = "0x0060" ∧
    (LicenseGenerator.generate_license tp).payload.name = "0x0060" ∧
    (LicenseGenerator.generate_license tp).payload.email = "ren@0x0060.dev" ∧
    (LicenseGenerator.generate_license tp).payload.licenses.length = 1 ∧
    (LicenseGenerator.generate_license tp).ident.features = [] ∧
    (LicenseGenerator.generate_license tp).header = [("version", Json.num 1)] ∧
    (LicenseGenerator.generate_license tp).signature = signatureToken ∧
    signatureToken.length = 256 ∧
    signatureToken.take 12 = "3238353E9008" := by
  rw [generate_license_eq]
  exact ⟨rfl, rfl, rfl, rfl, rfl, rfl, rfl, rfl, rfl, rfl, rfl, rfl, rfl, by decide, by decide⟩

/-- C10: `write_json` turns only a caught `IOError` into `False`: with a
writable destination it never returns `False`; a `TypeError` raised by
the JSON encoder escapes to the caller, after the destination was
already opened (and truncated) for writing. -/
theorem C10_typeError_escapes (fn : String) (data : PyVal) (e : PyErr) :
    (pyToJson data = .error e →
      (FileWriter.write_json none data fn).returned = .error e ∧
      (FileWriter.write_json none data fn).fileOpened = true) ∧
    (FileWriter.write_json none data fn).returned ≠ .ok false ∧
    (∀ oe : Option String,
      (FileWriter.write_json oe data fn).returned = .ok false → oe ≠ none) := by
  refine ⟨?_, ?_, ?_⟩
  · intro herr
    rw [FileWriter.write_json]
    rw [herr]
    exact ⟨rfl, rfl⟩
  · rw [FileWriter.write_json]
    rcases hp : pyToJson data with j | err <;> simp [hp]
  · intro oe hoe
    cases oe with
    | some e2 => simp
    | none =>
      rw [FileWriter.write_json] at hoe
      rcases hp : pyToJson data with j | err <;> rw [hp] at hoe <;> simp at hoe

theorem C10_typeError_escapes_witness :
    (FileWriter.write_json none (PyVal.pyDict [("bad", PyVal.pyObj "set")])
        "idapro.hexlic").returned
      = .error (.typeError "Object of type set is not JSON serializable") ∧
    (FileWriter.write_json none (PyVal.pyDict [("bad", PyVal.pyObj "set")])
        "idapro.hexlic").fileOpened = true :=
  (C10_typeError_escapes "idapro.hexlic" (PyVal.pyDict [("bad", PyVal.pyObj "set")])
      (.typeError "Object of type set is not JSON serializable")).1
    (by rw [pyToJson, pyToJsonPairs, pyToJson]; rfl)

end Ida9sp1
